import Mathlib

/-!
# Language-server session: request queue, handshake and inbound dispatch

A shallow embedding of `Plugin/LanguageServerProtocol.{h,cpp}`: the request
queue `LSPRequestMessageQueue` and the session `LanguageServerProtocol`.
Member functions become pure functions on explicit state records.  Effects on
collaborators (bytes written to the network, events posted to the owner, status
messages shown by the manager, response handlers invoked) are recorded in
append-only logs carried by the session record.
-/

namespace LSP

/-- The wx constant `wxNOT_FOUND`. -/
def wxNOT_FOUND : Int := -1

/-! ## Collaborator types (declared outside the two session files) -/

/-- Modelled from the spec: the values of `FileExtManager::FileType` that
`GetLanguageId` switches on; `TypeText` is the default passed to `GetType` and
`TypeOther` stands for every remaining enumerator. -/
inductive FileType
  | TypeSourceC
  | TypeSourceCpp
  | TypeHeader
  | TypeJS
  | TypeDockerfile
  | TypeJava
  | TypePython
  | TypeMakefile
  | TypePhp
  | TypeSQL
  | TypeText
  | TypeOther (n : Nat)
  deriving DecidableEq, Repr

/-- The two observations the session makes of a `wxFileName`. -/
structure wxFileName where
  GetFullPath : String
  GetFullName : String
  deriving DecidableEq, Repr

/-- Modelled from the spec: the closed set of outgoing request and notification
variants (`LSP/*Request.h`), each with the payload its constructor receives. -/
inductive RequestKind
  | InitializeRequest (rootUri : String)
  | DidOpenTextDocumentRequest (filename : wxFileName) (fileContent languageId : String)
  | DidCloseTextDocumentRequest (filename : wxFileName)
  | DidChangeTextDocumentRequest (filename : wxFileName) (fileContent : String)
  | GotoDefinitionRequest (filename : wxFileName) (line column : Nat)
  | GotoDeclarationRequest (filename : wxFileName) (line column : Nat)
  | CompletionRequest (filename : wxFileName) (line column : Nat)
  deriving DecidableEq, Repr

/-- Modelled from the spec: `LSP::RequestMessage` (section 3, "Request"): a
correlation id, the flag "expects reply", a status string (empty when absent)
and the variant with its payload. -/
structure RequestMessage where
  GetId : Int
  IsNeedsReply : Bool
  GetStatusMessage : String
  kind : RequestKind
  deriving DecidableEq, Repr

/-- Modelled from the spec: what the session reads from a decoded
`LSP::ResponseMessage` for which `IsOk()` holds: `GetId()`, `Has("error")`, the
code `LSP::ResponseError(...).GetErrorCode()`, `IsPushDiagnostics()` and the
full name of the file named by `params.uri`. -/
structure ResponseMessage where
  GetId : Int
  HasError : Bool
  GetErrorCode : Int
  IsPushDiagnostics : Bool
  uriFullName : String
  deriving DecidableEq, Repr

/-- Modelled from the spec: `LSP::ResponseError::kErrorCodeInternalError`
(the enum is declared in `LSP/ResponseError.h`; JSON-RPC value). -/
def kErrorCodeInternalError : Int := -32603

/-- Modelled from the spec: `LSP::ResponseError::kErrorCodeInvalidRequest`. -/
def kErrorCodeInvalidRequest : Int := -32600

/-- Modelled from the spec: `LSP::ResponseError::kErrorCodeInvalidParams`. -/
def kErrorCodeInvalidParams : Int := -32602

/-- The launch record handed to `LSPNetwork::Open`. -/
structure LSPStartupInfo where
  helperCommand : String
  lspServerCommand : String
  lspServerCommandWorkingDirectory : String
  flags : Nat
  deriving DecidableEq, Repr

/-- Modelled from the spec: the transport `LSPNetwork` (section 4.1).  `Open`
is asynchronous (completion arrives as the "connected" event), `Send` writes to
an open channel and does nothing otherwise, `Close` is idempotent.  The record
keeps the channel state and logs of what was opened, written and closed. -/
structure LSPNetwork where
  connected : Bool
  written : List RequestMessage
  opened : List LSPStartupInfo
  closeCalls : Nat
  deriving DecidableEq, Repr

namespace LSPNetwork

def IsConnected (n : LSPNetwork) : Bool := n.connected

def Open (n : LSPNetwork) (info : LSPStartupInfo) : LSPNetwork :=
  { n with opened := n.opened ++ [info] }

/-- The written item is the request whose `ToString()` encoding is sent. -/
def Send (n : LSPNetwork) (req : RequestMessage) : LSPNetwork :=
  if n.connected then { n with written := n.written ++ [req] } else n

def Close (n : LSPNetwork) : LSPNetwork :=
  { n with connected := false, closeCalls := n.closeCalls + 1 }

end LSPNetwork

/-! ## `LSPRequestMessageQueue` -/

/-- The three members of `LSPRequestMessageQueue`: the `std::queue` (head of
the list is the front), the `std::unordered_map` from id to request (an
association list; lookup takes the first entry under a key) and the flag. -/
structure LSPRequestMessageQueue where
  m_Queue : List RequestMessage
  m_pendingReplyMessages : List (Int × RequestMessage)
  m_waitingReponse : Bool
  deriving DecidableEq, Repr

/-- `unordered_map::count(k) != 0`. -/
def mapHas (m : List (Int × RequestMessage)) (k : Int) : Bool :=
  m.any (fun e => e.1 == k)

/-- The value stored under `k` (`find` / `operator[]` on a present key). -/
def mapFind (m : List (Int × RequestMessage)) (k : Int) : Option RequestMessage :=
  (m.find? (fun e => e.1 == k)).map Prod.snd

/-- `unordered_map::insert`: an entry already stored under the key is kept. -/
def mapInsert (m : List (Int × RequestMessage)) (k : Int) (v : RequestMessage) :
    List (Int × RequestMessage) :=
  if mapHas m k then m else m ++ [(k, v)]

/-- `unordered_map::erase(k)`. -/
def mapErase (m : List (Int × RequestMessage)) (k : Int) : List (Int × RequestMessage) :=
  m.filter (fun e => !(e.1 == k))

namespace LSPRequestMessageQueue

def IsEmpty (q : LSPRequestMessageQueue) : Bool := q.m_Queue.isEmpty

def SetWaitingReponse (q : LSPRequestMessageQueue) (waitingReponse : Bool) :
    LSPRequestMessageQueue :=
  { q with m_waitingReponse := waitingReponse }

def IsWaitingReponse (q : LSPRequestMessageQueue) : Bool := q.m_waitingReponse

def Push (q : LSPRequestMessageQueue) (message : RequestMessage) : LSPRequestMessageQueue :=
  let q1 := { q with m_Queue := q.m_Queue ++ [message] }
  if message.IsNeedsReply then
    { q1 with m_pendingReplyMessages :=
        mapInsert q1.m_pendingReplyMessages message.GetId message }
  else q1

def Pop (q : LSPRequestMessageQueue) : LSPRequestMessageQueue :=
  let q1 := if !q.m_Queue.isEmpty then { q with m_Queue := q.m_Queue.tail } else q
  q1.SetWaitingReponse false

/-- The front of the queue; `none` is the null pointer. -/
def Get (q : LSPRequestMessageQueue) : Option RequestMessage :=
  if q.m_Queue.isEmpty then none else q.m_Queue.head?

def Clear (q : LSPRequestMessageQueue) : LSPRequestMessageQueue :=
  let q1 := { q with m_Queue := [] }
  let q2 := q1.SetWaitingReponse false
  { q2 with m_pendingReplyMessages := [] }

/-- Returns the request taken (`none` is the null pointer) and the new queue. -/
def TakePendingReplyMessage (q : LSPRequestMessageQueue) (msgid : Int) :
    Option RequestMessage × LSPRequestMessageQueue :=
  if q.m_pendingReplyMessages.isEmpty then (none, q)
  else if !mapHas q.m_pendingReplyMessages msgid then (none, q)
  else
    let msgptr := mapFind q.m_pendingReplyMessages msgid
    (msgptr, { q with m_pendingReplyMessages := mapErase q.m_pendingReplyMessages msgid })

end LSPRequestMessageQueue

end LSP

namespace LSP

/-! ## The session `LanguageServerProtocol` -/

inductive eState
  | kUnInitialized
  | kInitialized
  deriving DecidableEq, Repr

/-- The event types of `LSPEvent` posted to the owner. -/
inductive LSPEventType
  | wxEVT_LSP_INITIALIZED
  | wxEVT_LSP_RESTART_NEEDED
  | wxEVT_LSP_REPARSE_NEEDED
  deriving DecidableEq, Repr

structure LSPEvent where
  type : LSPEventType
  GetServerName : String
  deriving DecidableEq, Repr

/-- What the session reads from an `IEditor`.  `GetText` is the full buffer,
read in the source either as `GetTextRange(0, GetLength())` or as
`GetCtrl()->GetText()`; `GetColumn` is `GetCtrl()->GetColumn(GetCurrentPosition())`. -/
structure IEditor where
  GetFileName : wxFileName
  IsModified : Bool
  GetText : String
  GetCurrentLine : Nat
  GetColumn : Nat
  deriving DecidableEq, Repr

/-- Collaborator functions the session calls and whose code lives elsewhere:
`FileExtManager::GetType` (on a full name, default `TypeText`) and the wire
codec run by the constructor `LSP::ResponseMessage(m_outputBuffer)`, which
returns the decoded message when `IsOk()` holds and the buffer it leaves. -/
structure Collaborators where
  GetType : String → FileType
  decode : String → Option ResponseMessage × String

/-- The members of `LanguageServerProtocol`, followed by the effect logs:
events posted with `m_owner->AddPendingEvent`, strings passed to
`clGetManager()->SetStatusMessage`, the calls `msg_ptr->OnResponse(res, m_owner)`
and the counter behind the ids handed out by `LSP::RequestMessage::MakeRequest`. -/
structure LanguageServerProtocol where
  m_name : String
  m_network : LSPNetwork
  m_lspCommand : String
  m_lspCommandWorkingDirectory : String
  m_filesSent : List String
  m_languages : List String
  m_outputBuffer : String
  m_rootFolder : String
  m_helperCommand : String
  m_state : eState
  m_initializeRequestID : Int
  m_Queue : LSPRequestMessageQueue
  m_createFlags : Nat
  ownerEvents : List LSPEvent
  statusMessages : List String
  onResponseCalls : List (RequestMessage × ResponseMessage)
  lastRequestId : Int
  deriving DecidableEq, Repr

/-- Modelled from the spec: a request that expects a reply takes the next id of
the monotonically increasing counter; it carries no status string. -/
def MakeRequest (s : LanguageServerProtocol) (kind : RequestKind) :
    RequestMessage × LanguageServerProtocol :=
  ({ GetId := s.lastRequestId + 1, IsNeedsReply := true, GetStatusMessage := "", kind := kind },
   { s with lastRequestId := s.lastRequestId + 1 })

/-- Modelled from the spec: a notification has no correlation id (it carries
`wxNOT_FOUND`) and expects no reply. -/
def MakeNotification (kind : RequestKind) (status : String) : RequestMessage :=
  { GetId := wxNOT_FOUND, IsNeedsReply := false, GetStatusMessage := status, kind := kind }

namespace LanguageServerProtocol

def GetName (s : LanguageServerProtocol) : String := s.m_name

def IsInitialized (s : LanguageServerProtocol) : Bool := s.m_state == eState.kInitialized

def IsRunning (s : LanguageServerProtocol) : Bool := s.m_network.IsConnected

def postEvent (s : LanguageServerProtocol) (t : LSPEventType) : LanguageServerProtocol :=
  { s with ownerEvents := s.ownerEvents ++ [{ type := t, GetServerName := s.GetName }] }

def GetLanguageIdOfType : FileType → String
  | FileType.TypeSourceC => "c"
  | FileType.TypeSourceCpp => "cpp"
  | FileType.TypeHeader => "cpp"
  | FileType.TypeJS => "javascript"
  | FileType.TypeDockerfile => "dockerfile"
  | FileType.TypeJava => "java"
  | FileType.TypePython => "python"
  | FileType.TypeMakefile => "makefile"
  | FileType.TypePhp => "php"
  | FileType.TypeSQL => "sql"
  | _ => ""

def GetLanguageId (env : Collaborators) (fn : wxFileName) : String :=
  GetLanguageIdOfType (env.GetType fn.GetFullName)

def ShouldHandleFile (env : Collaborators) (s : LanguageServerProtocol) (fn : wxFileName) : Bool :=
  s.m_languages.contains (GetLanguageId env fn)

def ProcessQueue (s : LanguageServerProtocol) : LanguageServerProtocol :=
  if s.m_Queue.IsEmpty then s
  else if s.m_Queue.IsWaitingReponse then s
  else
    match s.m_Queue.Get with
    | none => s
    | some req =>
      if !s.IsRunning then s
      else
        let s1 := { s with m_network := s.m_network.Send req }
        let s2 := { s1 with m_Queue := s1.m_Queue.SetWaitingReponse true }
        let s3 := { s2 with m_Queue := s2.m_Queue.Pop }
        if !(req.GetStatusMessage == "") then
          { s3 with statusMessages := s3.statusMessages ++ [req.GetStatusMessage] }
        else s3

def QueueMessage (s : LanguageServerProtocol) (request : RequestMessage) :
    LanguageServerProtocol :=
  if !s.IsInitialized then s
  else ProcessQueue { s with m_Queue := s.m_Queue.Push request }

def DoClear (s : LanguageServerProtocol) : LanguageServerProtocol :=
  { s with
    m_filesSent := []
    m_outputBuffer := ""
    m_state := eState.kUnInitialized
    m_initializeRequestID := wxNOT_FOUND
    m_Queue := s.m_Queue.Clear
    m_network := s.m_network.Close }

def DoStart (s : LanguageServerProtocol) : LanguageServerProtocol :=
  let s1 := s.DoClear
  if s1.m_lspCommand == "" then s1
  else
    let info : LSPStartupInfo :=
      { helperCommand := s1.m_helperCommand
        lspServerCommand := s1.m_lspCommand
        lspServerCommandWorkingDirectory := s1.m_lspCommandWorkingDirectory
        flags := s1.m_createFlags }
    { s1 with m_network := s1.m_network.Open info }

def Start (s : LanguageServerProtocol) : LanguageServerProtocol :=
  if s.IsRunning then s else s.DoStart

def Stop (s : LanguageServerProtocol) : LanguageServerProtocol :=
  { s with m_network := s.m_network.Close }

def SendOpenRequest (s : LanguageServerProtocol) (filename : wxFileName)
    (fileContent languageId : String) : LanguageServerProtocol :=
  let req := MakeNotification
    (RequestKind.DidOpenTextDocumentRequest filename fileContent languageId)
    ("[LSP] parsing file: " ++ filename.GetFullName)
  s.QueueMessage req

def SendCloseRequest (s : LanguageServerProtocol) (filename : wxFileName) :
    LanguageServerProtocol :=
  if !s.m_filesSent.contains filename.GetFullPath then s
  else
    let req := MakeNotification (RequestKind.DidCloseTextDocumentRequest filename) ""
    let s1 := s.QueueMessage req
    { s1 with m_filesSent := s1.m_filesSent.filter (fun p => !(p == filename.GetFullPath)) }

def SendChangeRequest (s : LanguageServerProtocol) (filename : wxFileName)
    (fileContent : String) : LanguageServerProtocol :=
  let req := MakeNotification
    (RequestKind.DidChangeTextDocumentRequest filename fileContent)
    ("[LSP] re-parsing file: " ++ filename.GetFullName)
  s.QueueMessage req

def SendSaveRequest (s : LanguageServerProtocol) (filename : wxFileName)
    (fileContent : String) : LanguageServerProtocol :=
  s.SendChangeRequest filename fileContent

def SendCodeCompleteRequest (env : Collaborators) (s : LanguageServerProtocol)
    (filename : wxFileName) (line column : Nat) : LanguageServerProtocol :=
  if ShouldHandleFile env s filename then
    let (req, s1) := MakeRequest s (RequestKind.CompletionRequest filename line column)
    s1.QueueMessage req
  else s

/-- The document-synchronisation prologue shared verbatim by `FindDefinition`,
`FindDeclaration` and `CodeComplete`. -/
def syncBeforeQuery (env : Collaborators) (s : LanguageServerProtocol) (editor : IEditor) :
    LanguageServerProtocol :=
  let filename := editor.GetFileName
  if s.m_filesSent.contains filename.GetFullPath && editor.IsModified then
    s.SendChangeRequest filename editor.GetText
  else if !s.m_filesSent.contains filename.GetFullPath then
    s.SendOpenRequest filename editor.GetText (GetLanguageId env filename)
  else s

/-- The argument `none` is the null editor pointer. -/
def FindDefinition (env : Collaborators) (s : LanguageServerProtocol) (editor : Option IEditor) :
    LanguageServerProtocol :=
  match editor with
  | none => s
  | some ed =>
    if !ShouldHandleFile env s ed.GetFileName then s
    else
      let s1 := syncBeforeQuery env s ed
      let (req, s2) := MakeRequest s1
        (RequestKind.GotoDefinitionRequest ed.GetFileName ed.GetCurrentLine ed.GetColumn)
      s2.QueueMessage req

def FindDeclaration (env : Collaborators) (s : LanguageServerProtocol) (editor : Option IEditor) :
    LanguageServerProtocol :=
  match editor with
  | none => s
  | some ed =>
    if !ShouldHandleFile env s ed.GetFileName then s
    else
      let s1 := syncBeforeQuery env s ed
      let (req, s2) := MakeRequest s1
        (RequestKind.GotoDeclarationRequest ed.GetFileName ed.GetCurrentLine ed.GetColumn)
      s2.QueueMessage req

def CodeComplete (env : Collaborators) (s : LanguageServerProtocol) (editor : Option IEditor) :
    LanguageServerProtocol :=
  match editor with
  | none => s
  | some ed =>
    if !ShouldHandleFile env s ed.GetFileName then s
    else
      let s1 := syncBeforeQuery env s ed
      SendCodeCompleteRequest env s1 ed.GetFileName ed.GetCurrentLine ed.GetColumn

def OpenEditor (env : Collaborators) (s : LanguageServerProtocol) (editor : Option IEditor) :
    LanguageServerProtocol :=
  if !s.IsInitialized then s
  else
    match editor with
    | none => s
    | some ed =>
      if ShouldHandleFile env s ed.GetFileName then
        if s.m_filesSent.contains ed.GetFileName.GetFullPath then
          s.SendChangeRequest ed.GetFileName ed.GetText
        else
          s.SendOpenRequest ed.GetFileName ed.GetText (GetLanguageId env ed.GetFileName)
      else s

def CloseEditor (env : Collaborators) (s : LanguageServerProtocol) (editor : Option IEditor) :
    LanguageServerProtocol :=
  if !s.IsInitialized then s
  else
    match editor with
    | none => s
    | some ed => if ShouldHandleFile env s ed.GetFileName then s.SendCloseRequest ed.GetFileName else s

/-- The argument is the active editor returned by the manager. -/
def OnFileLoaded (env : Collaborators) (s : LanguageServerProtocol) (active : Option IEditor) :
    LanguageServerProtocol :=
  OpenEditor env s active

def OnFileClosed (s : LanguageServerProtocol) (eventFileName : wxFileName) :
    LanguageServerProtocol :=
  s.SendCloseRequest eventFileName

def OnFileSaved (env : Collaborators) (s : LanguageServerProtocol) (active : Option IEditor) :
    LanguageServerProtocol :=
  match active with
  | none => s
  | some ed =>
    if ShouldHandleFile env s ed.GetFileName then s.SendSaveRequest ed.GetFileName ed.GetText
    else s

def OnNetConnected (s : LanguageServerProtocol) : LanguageServerProtocol :=
  let (req, s1) := MakeRequest s (RequestKind.InitializeRequest s.m_rootFolder)
  let s2 := { s1 with m_state := eState.kInitialized }
  let s3 := s2.QueueMessage req
  let s4 := { s3 with m_state := eState.kUnInitialized }
  { s4 with m_initializeRequestID := req.GetId }

def OnNetError (s : LanguageServerProtocol) : LanguageServerProtocol :=
  s.DoClear.postEvent LSPEventType.wxEVT_LSP_RESTART_NEEDED

end LanguageServerProtocol

end LSP

namespace LSP

namespace LanguageServerProtocol

/-- The `while(true)` loop of `OnNetDataReady`.  An iteration is followed by
another one only after `OnResponse` was called on a request taken out of
`m_pendingReplyMessages`, so the number of entries of that map bounds the number
of further iterations; the first argument is that bound. -/
def dispatchLoop (env : Collaborators) : Nat → LanguageServerProtocol → LanguageServerProtocol
  | 0, s => s
  | fuel + 1, s =>
    match env.decode s.m_outputBuffer with
    | (none, buf) => { s with m_outputBuffer := buf }
    | (some res, buf) =>
      let s0 := { s with m_outputBuffer := buf }
      if s0.IsInitialized then
        let (msg_ptr, q) := s0.m_Queue.TakePendingReplyMessage res.GetId
        let s1 := { s0 with m_Queue := q }
        if res.HasError then
          if res.GetErrorCode == kErrorCodeInternalError
              || res.GetErrorCode == kErrorCodeInvalidRequest then
            s1.postEvent LSPEventType.wxEVT_LSP_RESTART_NEEDED
          else if res.GetErrorCode == kErrorCodeInvalidParams then
            s1.postEvent LSPEventType.wxEVT_LSP_REPARSE_NEEDED
          else s1
        else
          match msg_ptr with
          | some msg =>
            let s2 := { s1 with onResponseCalls := s1.onResponseCalls ++ [(msg, res)] }
            if !(s2.m_outputBuffer == "") then dispatchLoop env fuel s2 else s2
          | none =>
            if res.IsPushDiagnostics then
              { s1 with statusMessages := s1.statusMessages ++
                  ["[LSP] parsing of file: " ++ res.uriFullName ++ " is completed"] }
            else s1
      else if res.GetId == s0.m_initializeRequestID then
        let s1 := { s0 with m_initializeRequestID := wxNOT_FOUND }
        let s2 := { s1 with m_state := eState.kInitialized }
        s2.postEvent LSPEventType.wxEVT_LSP_INITIALIZED
      else s0

/-- The argument `buffer` is the chunk carried by the data-ready event. -/
def OnNetDataReady (env : Collaborators) (s : LanguageServerProtocol) (buffer : String) :
    LanguageServerProtocol :=
  let s1 := { s with m_outputBuffer := s.m_outputBuffer ++ buffer }
  let s2 := { s1 with m_Queue := s1.m_Queue.SetWaitingReponse false }
  let s3 := dispatchLoop env (s2.m_Queue.m_pendingReplyMessages.length + 1) s2
  s3.ProcessQueue

def OnWorkspaceClosed (s : LanguageServerProtocol) : LanguageServerProtocol :=
  let s1 := { s with m_rootFolder := "" }
  s1.Stop.Start

/-- The argument is `wxFileName(event.GetString()).GetPath()`. -/
def OnWorkspaceOpen (s : LanguageServerProtocol) (path : String) : LanguageServerProtocol :=
  let s1 := { s with m_rootFolder := path }
  s1.Stop.Start

end LanguageServerProtocol

end LSP

namespace LSP

open LanguageServerProtocol LSPRequestMessageQueue

/-! ## Example values used by the concrete instances below -/

def exFile : wxFileName := { GetFullPath := "/a.cpp", GetFullName := "a.cpp" }

def exOpen : RequestMessage :=
  MakeNotification (RequestKind.DidOpenTextDocumentRequest exFile "int x;" "cpp")
    "[LSP] parsing file: a.cpp"

def exGoto : RequestMessage :=
  { GetId := 7, IsNeedsReply := true, GetStatusMessage := "",
    kind := RequestKind.GotoDefinitionRequest exFile 0 4 }

def exCompletion : RequestMessage :=
  { GetId := 7, IsNeedsReply := true, GetStatusMessage := "",
    kind := RequestKind.CompletionRequest exFile 0 4 }

def exNetwork : LSPNetwork := { connected := true, written := [], opened := [], closeCalls := 0 }

/-- A session as the constructor leaves it, for the server named "clangd" with
language set c/cpp, whose transport has since connected. -/
def exSession : LanguageServerProtocol :=
  { m_name := "clangd", m_network := exNetwork, m_lspCommand := "clangd",
    m_lspCommandWorkingDirectory := "/", m_filesSent := [], m_languages := ["c", "cpp"],
    m_outputBuffer := "", m_rootFolder := "/ws", m_helperCommand := "",
    m_state := eState.kUnInitialized, m_initializeRequestID := wxNOT_FOUND,
    m_Queue := { m_Queue := [], m_pendingReplyMessages := [], m_waitingReponse := false },
    m_createFlags := 0, ownerEvents := [], statusMessages := [], onResponseCalls := [],
    lastRequestId := 0 }

end LSP

namespace LSP

open LanguageServerProtocol LSPRequestMessageQueue

/-- An initialized session with two requests queued and nothing in flight. -/
def exTwoQueued : LanguageServerProtocol :=
  { exSession with
    m_state := eState.kInitialized
    m_Queue := { m_Queue := [exOpen, exGoto], m_pendingReplyMessages := [(7, exGoto)],
                 m_waitingReponse := false } }

/-- One step of a client of the queue: `Push` a request, or `ProcessQueue`. -/
inductive QueueStep
  | push (message : RequestMessage)
  | processQueue
  deriving DecidableEq, Repr

def applyStep (s : LanguageServerProtocol) : QueueStep → LanguageServerProtocol
  | QueueStep.push message => { s with m_Queue := s.m_Queue.Push message }
  | QueueStep.processQueue => s.ProcessQueue

def runSteps (s : LanguageServerProtocol) (steps : List QueueStep) : LanguageServerProtocol :=
  steps.foldl applyStep s

/-- The requests pushed by a run, in order. -/
def pushedBy : List QueueStep → List RequestMessage
  | [] => []
  | QueueStep.push message :: t => message :: pushedBy t
  | QueueStep.processQueue :: t => pushedBy t

/-- A queue whose id map already holds a request under id 7. -/
def exQueueHolding7 : LSPRequestMessageQueue :=
  { m_Queue := [], m_pendingReplyMessages := [(7, exGoto)], m_waitingReponse := false }

/-- A reply to request 7 carrying a result. -/
def exReply7 : ResponseMessage :=
  { GetId := 7, HasError := false, GetErrorCode := 0, IsPushDiagnostics := false,
    uriFullName := "" }

/-- A reply to request 7 carrying an error body. -/
def exError7 : ResponseMessage :=
  { GetId := 7, HasError := true, GetErrorCode := kErrorCodeInvalidParams,
    IsPushDiagnostics := false, uriFullName := "" }

/-- A reply to request 1 carrying a result. -/
def exReply1 : ResponseMessage :=
  { GetId := 1, HasError := false, GetErrorCode := 0, IsPushDiagnostics := false,
    uriFullName := "" }

/-- Collaborators for the concrete instances: `a.cpp` is a C++ source, any other
name is plain text, and the codec finds the one complete message `res` in any
non-empty buffer, consuming all of it. -/
def exEnv (res : ResponseMessage) : Collaborators :=
  { GetType := fun fn => if fn = "a.cpp" then FileType.TypeSourceCpp else FileType.TypeText
    decode := fun buf => if buf = "" then (none, "") else (some res, "") }

/-- An initialized session with request 7 sent and awaiting its reply. -/
def exAwaiting7 : LanguageServerProtocol :=
  { exSession with
    m_state := eState.kInitialized
    m_Queue := { m_Queue := [], m_pendingReplyMessages := [(7, exGoto)],
                 m_waitingReponse := false } }

/-- The session right after the "connected" event: the handshake request (id 1)
has been written and is held in the id map. -/
def exHandshaking : LanguageServerProtocol := exSession.OnNetConnected

/-- An editor showing the modified file `/a.cpp` with the cursor at line 0, column 4. -/
def exEditor : IEditor :=
  { GetFileName := exFile, IsModified := true, GetText := "int x;", GetCurrentLine := 0,
    GetColumn := 4 }

/-- Between `s` and `t` no request was enqueued, none was added to the id map
and nothing was written to the transport: the queue object and the network are
the same. -/
def NoRequestIssued (s t : LanguageServerProtocol) : Prop :=
  t.m_Queue = s.m_Queue ∧ t.m_network = s.m_network

end LSP

namespace LSP

open LanguageServerProtocol LSPRequestMessageQueue

/-- A server notification pushing diagnostics for `a.cpp`; it carries no id. -/
def exDiagnostics : ResponseMessage :=
  { GetId := wxNOT_FOUND, HasError := false, GetErrorCode := 0, IsPushDiagnostics := true,
    uriFullName := "a.cpp" }

/-- Collaborators with a one-character wire format: every character of the
stream is one complete message, `d` a diagnostics notification and any other
character the reply to request 7; the codec consumes exactly that character. -/
def exStreamEnv : Collaborators :=
  { GetType := fun fn => if fn = "a.cpp" then FileType.TypeSourceCpp else FileType.TypeText
    decode := fun buf =>
      match buf.data with
      | [] => (none, buf)
      | c :: t => (some (if c = 'd' then exDiagnostics else exReply7), String.mk t) }

end LSP

namespace LSP

open LanguageServerProtocol LSPRequestMessageQueue

/-- Every request pushed so far that has not been dropped by a `Clear`, in push
order: what was written to the transport followed by what is still queued. -/
def issued (s : LanguageServerProtocol) : List RequestMessage :=
  s.m_network.written ++ s.m_Queue.m_Queue

/-- The notification `SendOpenRequest` builds for an editor: full text and the
language id of its file, with the "parsing file" status string. -/
def didOpenOf (env : Collaborators) (ed : IEditor) : RequestMessage :=
  MakeNotification
    (RequestKind.DidOpenTextDocumentRequest ed.GetFileName ed.GetText
      (GetLanguageId env ed.GetFileName))
    ("[LSP] parsing file: " ++ ed.GetFileName.GetFullName)

/-- The notification `SendChangeRequest` builds for an editor. -/
def didChangeOf (ed : IEditor) : RequestMessage :=
  MakeNotification (RequestKind.DidChangeTextDocumentRequest ed.GetFileName ed.GetText)
    ("[LSP] re-parsing file: " ++ ed.GetFileName.GetFullName)

/-- The next request `MakeRequest` hands out in state `s` for a given variant. -/
def queryOf (s : LanguageServerProtocol) (kind : RequestKind) : RequestMessage :=
  (MakeRequest s kind).1

/-- The synchronisation notifications the prologue of a query issues: a change
when the file was sent and the editor is modified, an open when the file was
not sent, nothing when it was sent and is unmodified. -/
def syncOf (env : Collaborators) (s : LanguageServerProtocol) (ed : IEditor) :
    List RequestMessage :=
  if s.m_filesSent.contains ed.GetFileName.GetFullPath && ed.IsModified then [didChangeOf ed]
  else if !s.m_filesSent.contains ed.GetFileName.GetFullPath then [didOpenOf env ed]
  else []

/-- An initialized, connected session with nothing queued or pending and an
empty sent-set. -/
def exInitialized : LanguageServerProtocol :=
  { exSession with m_state := eState.kInitialized }

/-- An editor showing the unmodified file `/a.cpp`. -/
def exEditorClean : IEditor := { exEditor with IsModified := false }

end LSP

namespace LSP

open LanguageServerProtocol LSPRequestMessageQueue

/-! ## Remaining member functions, the constructor and the events of a session -/

/-- The set returned by `GetSupportedLanguages`, in the order of the source. -/
def GetSupportedLanguages : List String :=
  [ "bat",        "bibtex",     "clojure",     "coffeescript",  "c",
    "cpp",        "csharp",     "css",         "diff",          "dart",
    "dockerfile", "fsharp",     "git-commit",  "git-rebase",    "go",
    "groovy",     "handlebars", "html",        "ini",           "java",
    "javascript", "json",       "latex",       "less",          "lua",
    "makefile",   "markdown",   "objective-c", "objective-cpp", "perl and perl6",
    "php",        "powershell", "jade",        "python",        "r",
    "razor",      "ruby",       "rust",        "scss",          "sass",
    "scala",      "shaderlab",  "shellscript", "sql",           "swift",
    "typescript", "tex",        "vb",          "xml",           "xsl",
    "yaml" ]

def CanHandle (env : Collaborators) (s : LanguageServerProtocol) (filename : wxFileName) : Bool :=
  let lang := GetLanguageId env filename
  s.m_languages.contains lang

/-- The `std::set` insertion used to fill `m_languages`. -/
def setInsert (xs : List String) (x : String) : List String :=
  if xs.contains x then xs else xs ++ [x]

/-- The six-argument `Start`. -/
def StartWith (s : LanguageServerProtocol) (helperCommand lspCommand
    lspCommandWorkingDirectory rootFolder : String) (languages : List String) (flags : Nat) :
    LanguageServerProtocol :=
  if s.IsRunning then s
  else
    let s1 := s.DoClear
    let s2 := { s1 with m_languages := [] }
    let s3 := { s2 with m_languages := languages.foldl setInsert s2.m_languages }
    let s4 := { s3 with
      m_lspCommand := lspCommand
      m_lspCommandWorkingDirectory := lspCommandWorkingDirectory
      m_rootFolder := rootFolder
      m_helperCommand := helperCommand
      m_createFlags := flags }
    s4.DoStart

def SetName (s : LanguageServerProtocol) (name : String) : LanguageServerProtocol :=
  { s with m_name := name }

/-- The constructor: the name is stored, every other member takes its default
and the network object is new, hence not connected.  The second argument is
the value of the request-id counter at that time. -/
def construct (name : String) (lastRequestId : Int) : LanguageServerProtocol :=
  { m_name := name
    m_network := { connected := false, written := [], opened := [], closeCalls := 0 }
    m_lspCommand := "", m_lspCommandWorkingDirectory := "", m_filesSent := []
    m_languages := [], m_outputBuffer := "", m_rootFolder := "", m_helperCommand := ""
    m_state := eState.kUnInitialized, m_initializeRequestID := wxNOT_FOUND
    m_Queue := { m_Queue := [], m_pendingReplyMessages := [], m_waitingReponse := false }
    m_createFlags := 0, ownerEvents := [], statusMessages := [], onResponseCalls := []
    lastRequestId := lastRequestId }

/-- Everything that can happen to a session between two observations: a public
member function is called, an event handler runs, or the transport changes its
connection state on its own. -/
inductive SessionEvent
  | start
  | startWith (helperCommand lspCommand lspCommandWorkingDirectory rootFolder : String)
      (languages : List String) (flags : Nat)
  | stop
  | setName (name : String)
  | netConnected
  | netDataReady (chunk : String)
  | netError
  | transportState (connected : Bool)
  | findDefinition (editor : Option IEditor)
  | findDeclaration (editor : Option IEditor)
  | codeComplete (editor : Option IEditor)
  | openEditor (editor : Option IEditor)
  | closeEditor (editor : Option IEditor)
  | fileLoaded (active : Option IEditor)
  | fileClosed (filename : wxFileName)
  | fileSaved (active : Option IEditor)
  | workspaceClosed
  | workspaceOpen (path : String)

/-- The effect of one event.  The "connected" event is delivered by a transport
that is connected by then. -/
def stepSession (env : Collaborators) (s : LanguageServerProtocol) :
    SessionEvent → LanguageServerProtocol
  | SessionEvent.start => s.Start
  | SessionEvent.startWith h c w r l f => StartWith s h c w r l f
  | SessionEvent.stop => s.Stop
  | SessionEvent.setName name => SetName s name
  | SessionEvent.netConnected =>
      OnNetConnected { s with m_network := { s.m_network with connected := true } }
  | SessionEvent.netDataReady chunk => OnNetDataReady env s chunk
  | SessionEvent.netError => s.OnNetError
  | SessionEvent.transportState b => { s with m_network := { s.m_network with connected := b } }
  | SessionEvent.findDefinition editor => FindDefinition env s editor
  | SessionEvent.findDeclaration editor => FindDeclaration env s editor
  | SessionEvent.codeComplete editor => CodeComplete env s editor
  | SessionEvent.openEditor editor => OpenEditor env s editor
  | SessionEvent.closeEditor editor => CloseEditor env s editor
  | SessionEvent.fileLoaded active => OnFileLoaded env s active
  | SessionEvent.fileClosed filename => s.OnFileClosed filename
  | SessionEvent.fileSaved active => OnFileSaved env s active
  | SessionEvent.workspaceClosed => s.OnWorkspaceClosed
  | SessionEvent.workspaceOpen path => s.OnWorkspaceOpen path

def runSession (env : Collaborators) (s : LanguageServerProtocol) (events : List SessionEvent) :
    LanguageServerProtocol :=
  events.foldl (stepSession env) s

/-- The spec's reading of "initialized": handshake id clear and state
`Initialized`. -/
def specIsInitialized (s : LanguageServerProtocol) : Bool :=
  s.m_initializeRequestID == wxNOT_FOUND && s.m_state == eState.kInitialized

end LSP

namespace LSP

open LanguageServerProtocol LSPRequestMessageQueue

/-- A stopped session with no launch command configured. -/
def exNoCommand : LanguageServerProtocol :=
  { exSession with m_lspCommand := "", m_network := exNetwork.Close }

/-- A stopped session with the launch command "clangd". -/
def exStopped : LanguageServerProtocol :=
  { exSession with m_network := exNetwork.Close }

/-- A reply to request 7 with the error code "method not found". -/
def exMethodNotFound7 : ResponseMessage :=
  { GetId := 7, HasError := true, GetErrorCode := -32601, IsPushDiagnostics := false,
    uriFullName := "" }

/-- The launch record `DoStart` builds from the members of a session. -/
def startupInfoOf (s : LanguageServerProtocol) : LSPStartupInfo :=
  { helperCommand := s.m_helperCommand
    lspServerCommand := s.m_lspCommand
    lspServerCommandWorkingDirectory := s.m_lspCommandWorkingDirectory
    flags := s.m_createFlags }

/-- Collaborators whose codec finds no complete message in any buffer and
leaves the buffer untouched. -/
def exIncompleteEnv : Collaborators :=
  { GetType := fun _ => FileType.TypeText
    decode := fun buf => (none, buf) }

end LSP

namespace LSP

open LanguageServerProtocol LSPRequestMessageQueue

/-- The state `kInitialized` is only ever held with the handshake id cleared. -/
def HandshakeInv (s : LanguageServerProtocol) : Prop :=
  s.m_state = eState.kInitialized → s.m_initializeRequestID = wxNOT_FOUND

/-- Going from `s` to `t` kept the state and the handshake id, and did not
populate an empty sent-set. -/
def KeepsCore (s t : LanguageServerProtocol) : Prop :=
  t.m_state = s.m_state ∧ t.m_initializeRequestID = s.m_initializeRequestID ∧
  (s.m_filesSent = [] → t.m_filesSent = [])

end LSP

namespace LSP

open LanguageServerProtocol LSPRequestMessageQueue

/-! ## Counting the iterations of the inbound loop -/

/-- The loop of `OnNetDataReady` once more, branch for branch as in
`dispatchLoop`, returning next to the final state the number of times the loop
body ran. -/
def dispatchLoopTrace (env : Collaborators) :
    Nat → LanguageServerProtocol → LanguageServerProtocol × Nat
  | 0, s => (s, 0)
  | fuel + 1, s =>
    match env.decode s.m_outputBuffer with
    | (none, buf) => ({ s with m_outputBuffer := buf }, 1)
    | (some res, buf) =>
      let s0 := { s with m_outputBuffer := buf }
      if s0.IsInitialized then
        let (msg_ptr, q) := s0.m_Queue.TakePendingReplyMessage res.GetId
        let s1 := { s0 with m_Queue := q }
        if res.HasError then
          if res.GetErrorCode == kErrorCodeInternalError
              || res.GetErrorCode == kErrorCodeInvalidRequest then
            (s1.postEvent LSPEventType.wxEVT_LSP_RESTART_NEEDED, 1)
          else if res.GetErrorCode == kErrorCodeInvalidParams then
            (s1.postEvent LSPEventType.wxEVT_LSP_REPARSE_NEEDED, 1)
          else (s1, 1)
        else
          match msg_ptr with
          | some msg =>
            let s2 := { s1 with onResponseCalls := s1.onResponseCalls ++ [(msg, res)] }
            if !(s2.m_outputBuffer == "") then
              ((dispatchLoopTrace env fuel s2).1, (dispatchLoopTrace env fuel s2).2 + 1)
            else (s2, 1)
          | none =>
            if res.IsPushDiagnostics then
              ({ s1 with statusMessages := s1.statusMessages ++
                  ["[LSP] parsing of file: " ++ res.uriFullName ++ " is completed"] }, 1)
            else (s1, 1)
      else if res.GetId == s0.m_initializeRequestID then
        let s1 := { s0 with m_initializeRequestID := wxNOT_FOUND }
        let s2 := { s1 with m_state := eState.kInitialized }
        (s2.postEvent LSPEventType.wxEVT_LSP_INITIALIZED, 1)
      else (s0, 1)

/-- The number of times the loop body runs during one data-ready event. -/
def dataReadyIterations (env : Collaborators) (s : LanguageServerProtocol) (chunk : String) :
    Nat :=
  (dispatchLoopTrace env (s.m_Queue.m_pendingReplyMessages.length + 1)
    { s with m_outputBuffer := s.m_outputBuffer ++ chunk,
             m_Queue := s.m_Queue.SetWaitingReponse false }).2

/-- How often the codec succeeds when it is applied again and again to what it
left of a buffer; the first argument bounds the number of attempts. -/
def completeMessages (env : Collaborators) : Nat → String → Nat
  | 0, _ => 0
  | k + 1, buf =>
    match env.decode buf with
    | (some _, rest) => completeMessages env k rest + 1
    | (none, _) => 0

/-- The number of complete messages in a buffer, for a codec that removes at
least one character with every message it decodes. -/
def messagesIn (env : Collaborators) (buf : String) : Nat :=
  completeMessages env buf.length buf

end LSP

namespace LSP

open LanguageServerProtocol LSPRequestMessageQueue

/-! ## A run from the constructor -/

/-- The life of a session up to its first query: it is started for "clangd"
with the languages c and cpp, the transport connects, the handshake reply
arrives (under `exEnv exReply1`), and `FindDefinition` is called on the
unmodified `/a.cpp`, which issues the did-open notification for that file. -/
def exOpenRun : List SessionEvent :=
  [ SessionEvent.startWith "" "clangd" "/" "/ws" ["c", "cpp"] 0,
    SessionEvent.netConnected,
    SessionEvent.netDataReady "x",
    SessionEvent.findDefinition (some exEditorClean) ]

/-- The state that run ends in. -/
def exAfterOpen : LanguageServerProtocol :=
  runSession (exEnv exReply1) (construct "clangd" 0) exOpenRun

/-- A reply to request 2 reporting an internal error. -/
def exInternalError2 : ResponseMessage :=
  { GetId := 2, HasError := true, GetErrorCode := kErrorCodeInternalError,
    IsPushDiagnostics := false, uriFullName := "" }

end LSP

namespace LSP

open LanguageServerProtocol LSPRequestMessageQueue

/-! ## Lemmas on the id map -/

theorem mapHas_cons (e : Int × RequestMessage) (t : List (Int × RequestMessage)) (k : Int) :
    mapHas (e :: t) k = (e.1 == k || mapHas t k) := by
  simp [mapHas]

theorem mapFind_cons (e : Int × RequestMessage) (t : List (Int × RequestMessage)) (k : Int) :
    mapFind (e :: t) k = if e.1 == k then some e.2 else mapFind t k := by
  cases h : e.1 == k <;> simp [mapFind, List.find?_cons, h]

theorem mapErase_cons (e : Int × RequestMessage) (t : List (Int × RequestMessage)) (k : Int) :
    mapErase (e :: t) k = if e.1 == k then mapErase t k else e :: mapErase t k := by
  cases h : e.1 == k <;> simp [mapErase, List.filter_cons, h]

theorem mapFind_isSome_of_mapHas (m : List (Int × RequestMessage)) (k : Int)
    (h : mapHas m k = true) : ∃ r, mapFind m k = some r := by
  induction m with
  | nil => simp [mapHas] at h
  | cons e t ih =>
    rw [mapHas_cons] at h
    rw [mapFind_cons]
    cases he : e.1 == k
    · rw [he] at h
      simpa using ih (by simpa using h)
    · exact ⟨e.2, by simp⟩

theorem mapFind_eq_none_of_not_mapHas (m : List (Int × RequestMessage)) (k : Int)
    (h : mapHas m k = false) : mapFind m k = none := by
  induction m with
  | nil => rfl
  | cons e t ih =>
    rw [mapHas_cons] at h
    rw [mapFind_cons]
    cases he : e.1 == k
    · rw [he] at h
      simpa using ih (by simpa using h)
    · rw [he] at h
      simp at h

theorem mapFind_mapErase (m : List (Int × RequestMessage)) (id k : Int) :
    mapFind (mapErase m id) k = if k = id then none else mapFind m k := by
  induction m with
  | nil => simp [mapFind, mapErase]
  | cons e t ih =>
    rw [mapErase_cons, mapFind_cons]
    by_cases he : e.1 = id
    · have hb : (e.1 == id) = true := by simpa using he
      rw [hb, if_pos rfl, ih]
      by_cases hk : k = id
      · simp [hk]
      · have hek : (e.1 == k) = false := by
          simpa using fun h : e.1 = k => hk (h ▸ he)
        simp [hk, hek]
    · have hb : (e.1 == id) = false := by simpa using he
      rw [hb]
      simp only [Bool.false_eq_true, if_false]
      rw [mapFind_cons, ih]
      by_cases hk : k = id
      · subst hk
        simp [hb]
      · simp [hk]

theorem mapHas_mapErase_self (m : List (Int × RequestMessage)) (id : Int) :
    mapHas (mapErase m id) id = false := by
  simp [mapHas, mapErase]

theorem mapErase_length_le (m : List (Int × RequestMessage)) (id : Int) :
    (mapErase m id).length ≤ m.length :=
  List.length_filter_le _ m

theorem mapErase_length_lt (m : List (Int × RequestMessage)) (id : Int)
    (h : mapHas m id = true) : (mapErase m id).length < m.length := by
  induction m with
  | nil => simp [mapHas] at h
  | cons e t ih =>
    rw [mapHas_cons] at h
    rw [mapErase_cons]
    cases he : e.1 == id
    · rw [he] at h
      have := ih (by simpa using h)
      simp only [Bool.false_eq_true, if_false, List.length_cons]
      omega
    · have := mapErase_length_le t id
      simp only [if_true, List.length_cons]
      omega

end LSP

namespace LSP

open LanguageServerProtocol LSPRequestMessageQueue

/-! ## `ProcessQueue` -/

theorem ProcessQueue_idle (s : LanguageServerProtocol)
    (h : s.m_Queue.m_Queue = [] ∨ s.m_Queue.m_waitingReponse = true
      ∨ s.m_network.connected = false) : s.ProcessQueue = s := by
  unfold ProcessQueue
  rcases h with h | h | h
  · simp [LSPRequestMessageQueue.IsEmpty, h]
  · simp [LSPRequestMessageQueue.IsWaitingReponse, h]
  · cases hg : s.m_Queue.Get <;>
      simp [IsRunning, LSPNetwork.IsConnected, h]

theorem ProcessQueue_send (s : LanguageServerProtocol) (req : RequestMessage)
    (rest : List RequestMessage) (hq : s.m_Queue.m_Queue = req :: rest)
    (hw : s.m_Queue.m_waitingReponse = false) (hc : s.m_network.connected = true) :
    s.ProcessQueue =
      { s with
        m_network := { s.m_network with written := s.m_network.written ++ [req] }
        m_Queue := { s.m_Queue with m_Queue := rest, m_waitingReponse := false }
        statusMessages :=
          if req.GetStatusMessage = "" then s.statusMessages
          else s.statusMessages ++ [req.GetStatusMessage] } := by
  unfold ProcessQueue
  by_cases hs : req.GetStatusMessage = "" <;>
    simp [LSPRequestMessageQueue.IsEmpty, LSPRequestMessageQueue.IsWaitingReponse,
      LSPRequestMessageQueue.Get, LSPRequestMessageQueue.Pop,
      LSPRequestMessageQueue.SetWaitingReponse, IsRunning, LSPNetwork.IsConnected,
      LSPNetwork.Send, hq, hw, hc, hs]

/-- Every call leaves the network, queue and flag related as follows: what
was written plus what is still queued is preserved, and nothing but the head
is written. -/
theorem ProcessQueue_cases (s : LanguageServerProtocol) :
    s.ProcessQueue = s ∨
    ∃ req rest, s.m_Queue.m_Queue = req :: rest ∧
      (s.ProcessQueue).m_network.written = s.m_network.written ++ [req] ∧
      (s.ProcessQueue).m_Queue.m_Queue = rest ∧
      (s.ProcessQueue).m_network.connected = s.m_network.connected := by
  cases hq : s.m_Queue.m_Queue with
  | nil => exact Or.inl (ProcessQueue_idle s (Or.inl hq))
  | cons req rest =>
    cases hw : s.m_Queue.m_waitingReponse with
    | true => exact Or.inl (ProcessQueue_idle s (Or.inr (Or.inl hw)))
    | false =>
      cases hc : s.m_network.connected with
      | false => exact Or.inl (ProcessQueue_idle s (Or.inr (Or.inr hc)))
      | true =>
        rw [ProcessQueue_send s req rest hq hw hc]
        exact Or.inr ⟨req, rest, rfl, rfl, rfl, hc⟩

theorem ProcessQueue_pending (s : LanguageServerProtocol) :
    (s.ProcessQueue).m_Queue.m_pendingReplyMessages = s.m_Queue.m_pendingReplyMessages := by
  cases hq : s.m_Queue.m_Queue with
  | nil => rw [ProcessQueue_idle s (Or.inl hq)]
  | cons req rest =>
    cases hw : s.m_Queue.m_waitingReponse with
    | true => rw [ProcessQueue_idle s (Or.inr (Or.inl hw))]
    | false =>
      cases hc : s.m_network.connected with
      | false => rw [ProcessQueue_idle s (Or.inr (Or.inr hc))]
      | true => rw [ProcessQueue_send s req rest hq hw hc]

/-- The fields `ProcessQueue` never touches. -/
theorem ProcessQueue_frame (s : LanguageServerProtocol) :
    (s.ProcessQueue).m_state = s.m_state ∧
    (s.ProcessQueue).m_initializeRequestID = s.m_initializeRequestID ∧
    (s.ProcessQueue).ownerEvents = s.ownerEvents ∧
    (s.ProcessQueue).onResponseCalls = s.onResponseCalls ∧
    (s.ProcessQueue).m_filesSent = s.m_filesSent ∧
    (s.ProcessQueue).m_outputBuffer = s.m_outputBuffer ∧
    (s.ProcessQueue).m_name = s.m_name := by
  cases hq : s.m_Queue.m_Queue with
  | nil => rw [ProcessQueue_idle s (Or.inl hq)]; simp
  | cons req rest =>
    cases hw : s.m_Queue.m_waitingReponse with
    | true => rw [ProcessQueue_idle s (Or.inr (Or.inl hw))]; simp
    | false =>
      cases hc : s.m_network.connected with
      | false => rw [ProcessQueue_idle s (Or.inr (Or.inr hc))]; simp
      | true => rw [ProcessQueue_send s req rest hq hw hc]; simp

end LSP

namespace LSP

open LanguageServerProtocol LSPRequestMessageQueue

/-! ## `TakePendingReplyMessage` and the dispatch loop -/

theorem Take_absent (q : LSPRequestMessageQueue) (id : Int)
    (h : mapHas q.m_pendingReplyMessages id = false) :
    q.TakePendingReplyMessage id = (none, q) := by
  unfold TakePendingReplyMessage
  cases q.m_pendingReplyMessages.isEmpty <;> simp [h]

theorem Take_present (q : LSPRequestMessageQueue) (id : Int)
    (h : mapHas q.m_pendingReplyMessages id = true) :
    q.TakePendingReplyMessage id =
      (mapFind q.m_pendingReplyMessages id,
       { q with m_pendingReplyMessages := mapErase q.m_pendingReplyMessages id }) := by
  have hne : q.m_pendingReplyMessages.isEmpty = false := by
    cases hm : q.m_pendingReplyMessages with
    | nil => rw [hm] at h; simp [mapHas] at h
    | cons e t => rfl
  simp [TakePendingReplyMessage, hne, h]

theorem Take_some_length (q : LSPRequestMessageQueue) (id : Int) (msg : RequestMessage)
    (h : (q.TakePendingReplyMessage id).1 = some msg) :
    (q.TakePendingReplyMessage id).2.m_pendingReplyMessages.length
      < q.m_pendingReplyMessages.length := by
  cases hh : mapHas q.m_pendingReplyMessages id with
  | false => rw [Take_absent q id hh] at h; simp at h
  | true =>
    rw [Take_present q id hh]
    exact mapErase_length_lt _ _ hh

theorem Take_length_le (q : LSPRequestMessageQueue) (id : Int) :
    (q.TakePendingReplyMessage id).2.m_pendingReplyMessages.length
      ≤ q.m_pendingReplyMessages.length := by
  cases hh : mapHas q.m_pendingReplyMessages id with
  | false => rw [Take_absent q id hh]
  | true =>
    rw [Take_present q id hh]
    exact mapErase_length_le _ _

/-- The loop bound used by `OnNetDataReady` is enough: any two bounds above the
number of entries of the id map give the same result, so the loop never stops
for lack of iterations. -/
theorem dispatchLoop_bound_irrelevant (env : Collaborators) :
    ∀ (n m : Nat) (s : LanguageServerProtocol),
      s.m_Queue.m_pendingReplyMessages.length < n →
      s.m_Queue.m_pendingReplyMessages.length < m →
      dispatchLoop env n s = dispatchLoop env m s := by
  intro n
  induction n with
  | zero => intro m s hn _; omega
  | succ n ih =>
    intro m s hn hm
    cases m with
    | zero => omega
    | succ m =>
      unfold dispatchLoop
      rcases hd : env.decode s.m_outputBuffer with ⟨_ | res, buf⟩
      · rfl
      · simp only
        cases hi : IsInitialized { s with m_outputBuffer := buf }
        · rfl
        · simp only [if_true]
          cases he : res.HasError
          · simp only [Bool.false_eq_true, if_false]
            rcases ht : (s.m_Queue.TakePendingReplyMessage res.GetId) with ⟨_ | msg, q⟩
            · rfl
            · simp only
              split
              · apply ih
                · have := Take_some_length s.m_Queue res.GetId msg (by rw [ht])
                  rw [ht] at this
                  simp only at this ⊢
                  omega
                · have := Take_some_length s.m_Queue res.GetId msg (by rw [ht])
                  rw [ht] at this
                  simp only at this ⊢
                  omega
              · rfl
          · rfl

end LSP

namespace LSP

open LanguageServerProtocol LSPRequestMessageQueue

theorem dispatchLoop_none (env : Collaborators) (n : Nat) (s : LanguageServerProtocol)
    (buf : String) (hd : env.decode s.m_outputBuffer = (none, buf)) :
    dispatchLoop env (n + 1) s = { s with m_outputBuffer := buf } := by
  unfold dispatchLoop
  simp [hd]

/-- One iteration on a reply without error body whose id is a key of the map. -/
theorem dispatchLoop_reply (env : Collaborators) (n : Nat) (s : LanguageServerProtocol)
    (res : ResponseMessage) (rest : String) (req : RequestMessage)
    (hs : s.m_state = eState.kInitialized)
    (hd : env.decode s.m_outputBuffer = (some res, rest))
    (he : res.HasError = false)
    (hk : mapHas s.m_Queue.m_pendingReplyMessages res.GetId = true)
    (hf : mapFind s.m_Queue.m_pendingReplyMessages res.GetId = some req) :
    dispatchLoop env (n + 1) s =
      if rest = "" then
        { s with
          m_outputBuffer := rest
          m_Queue := { s.m_Queue with
            m_pendingReplyMessages := mapErase s.m_Queue.m_pendingReplyMessages res.GetId }
          onResponseCalls := s.onResponseCalls ++ [(req, res)] }
      else dispatchLoop env n
        { s with
          m_outputBuffer := rest
          m_Queue := { s.m_Queue with
            m_pendingReplyMessages := mapErase s.m_Queue.m_pendingReplyMessages res.GetId }
          onResponseCalls := s.onResponseCalls ++ [(req, res)] } := by
  conv_lhs => unfold dispatchLoop
  simp only [hd, IsInitialized, hs, he, Take_present _ _ hk, hf]
  by_cases hr : rest = "" <;> simp [hr]

/-- One iteration on a message whose id is not a key of the map never calls a
handler, never changes the map and ends the loop. -/
theorem dispatchLoop_absent (env : Collaborators) (n : Nat) (s : LanguageServerProtocol)
    (res : ResponseMessage) (rest : String)
    (hd : env.decode s.m_outputBuffer = (some res, rest))
    (hk : mapHas s.m_Queue.m_pendingReplyMessages res.GetId = false) :
    (dispatchLoop env (n + 1) s).onResponseCalls = s.onResponseCalls ∧
    (dispatchLoop env (n + 1) s).m_Queue = s.m_Queue := by
  unfold dispatchLoop
  simp only [hd, Take_absent _ _ hk]
  cases s.m_state <;> simp only [IsInitialized] <;> (repeat' split) <;> simp [postEvent]

/-- While the session is uninitialized the loop calls no handler and leaves the
request queue alone. -/
theorem dispatchLoop_uninit (env : Collaborators) (n : Nat) (s : LanguageServerProtocol)
    (hs : s.m_state = eState.kUnInitialized) :
    (dispatchLoop env n s).onResponseCalls = s.onResponseCalls ∧
    (dispatchLoop env n s).m_Queue = s.m_Queue := by
  cases n with
  | zero => exact ⟨rfl, rfl⟩
  | succ n =>
    unfold dispatchLoop
    simp only [IsInitialized, hs]
    (repeat' split) <;> simp_all [postEvent]

/-! ## The gate in `QueueMessage` -/

theorem QueueMessage_uninit (s : LanguageServerProtocol) (request : RequestMessage)
    (hs : s.m_state = eState.kUnInitialized) : s.QueueMessage request = s := by
  simp [QueueMessage, IsInitialized, hs]

theorem QueueMessage_init (s : LanguageServerProtocol) (request : RequestMessage)
    (hs : s.m_state = eState.kInitialized) :
    s.QueueMessage request = ProcessQueue { s with m_Queue := s.m_Queue.Push request } := by
  simp [QueueMessage, IsInitialized, hs]

theorem syncBeforeQuery_uninit (env : Collaborators) (s : LanguageServerProtocol)
    (editor : IEditor) (hs : s.m_state = eState.kUnInitialized) :
    syncBeforeQuery env s editor = s := by
  unfold syncBeforeQuery SendChangeRequest SendOpenRequest
  simp only [QueueMessage_uninit s _ hs]
  split
  · rfl
  · split <;> rfl

theorem SendCloseRequest_uninit (s : LanguageServerProtocol) (filename : wxFileName)
    (hs : s.m_state = eState.kUnInitialized) :
    NoRequestIssued s (s.SendCloseRequest filename) := by
  unfold SendCloseRequest
  simp only [QueueMessage_uninit s _ hs]
  split <;> exact ⟨rfl, rfl⟩

end LSP

namespace LSP

open LanguageServerProtocol LSPRequestMessageQueue

/-! ## Further single-iteration facts and frame facts -/

/-- More fields `ProcessQueue` never touches. -/
theorem ProcessQueue_frame2 (s : LanguageServerProtocol) :
    (s.ProcessQueue).m_languages = s.m_languages ∧
    (s.ProcessQueue).lastRequestId = s.lastRequestId ∧
    (s.ProcessQueue).m_rootFolder = s.m_rootFolder ∧
    (s.ProcessQueue).m_network.connected = s.m_network.connected ∧
    (s.ProcessQueue).m_network.opened = s.m_network.opened ∧
    (s.ProcessQueue).m_network.closeCalls = s.m_network.closeCalls := by
  cases hq : s.m_Queue.m_Queue with
  | nil => rw [ProcessQueue_idle s (Or.inl hq)]; simp
  | cons req rest =>
    cases hw : s.m_Queue.m_waitingReponse with
    | true => rw [ProcessQueue_idle s (Or.inr (Or.inl hw))]; simp
    | false =>
      cases hc : s.m_network.connected with
      | false => rw [ProcessQueue_idle s (Or.inr (Or.inr hc))]; simp [hc]
      | true => rw [ProcessQueue_send s req rest hq hw hc]; simp [hc]

/-- One iteration on an error response in an initialized session. -/
theorem dispatchLoop_error (env : Collaborators) (n : Nat) (s : LanguageServerProtocol)
    (res : ResponseMessage) (rest : String)
    (hs : s.m_state = eState.kInitialized)
    (hd : env.decode s.m_outputBuffer = (some res, rest))
    (he : res.HasError = true) :
    dispatchLoop env (n + 1) s =
      if res.GetErrorCode = kErrorCodeInternalError
          ∨ res.GetErrorCode = kErrorCodeInvalidRequest then
        postEvent { s with m_outputBuffer := rest,
                           m_Queue := (s.m_Queue.TakePendingReplyMessage res.GetId).2 }
          LSPEventType.wxEVT_LSP_RESTART_NEEDED
      else if res.GetErrorCode = kErrorCodeInvalidParams then
        postEvent { s with m_outputBuffer := rest,
                           m_Queue := (s.m_Queue.TakePendingReplyMessage res.GetId).2 }
          LSPEventType.wxEVT_LSP_REPARSE_NEEDED
      else { s with m_outputBuffer := rest,
                    m_Queue := (s.m_Queue.TakePendingReplyMessage res.GetId).2 } := by
  unfold dispatchLoop
  rcases ht : s.m_Queue.TakePendingReplyMessage res.GetId with ⟨o, q⟩
  simp only [hd, IsInitialized, hs, he, ht]
  by_cases h1 : res.GetErrorCode = kErrorCodeInternalError
  · simp [h1]
  · by_cases h2 : res.GetErrorCode = kErrorCodeInvalidRequest
    · simp [h2]
    · by_cases h3 : res.GetErrorCode = kErrorCodeInvalidParams <;> simp [h1, h2, h3]

/-- One iteration on a message that is not the awaited handshake reply, in an
uninitialized session: only the buffer changes. -/
theorem dispatchLoop_uninit_other (env : Collaborators) (n : Nat) (s : LanguageServerProtocol)
    (res : ResponseMessage) (rest : String)
    (hs : s.m_state = eState.kUnInitialized)
    (hd : env.decode s.m_outputBuffer = (some res, rest))
    (hid : res.GetId ≠ s.m_initializeRequestID) :
    dispatchLoop env (n + 1) s = { s with m_outputBuffer := rest } := by
  unfold dispatchLoop
  simp [hd, IsInitialized, hs, hid]

/-- One iteration, in an initialized session, on a message without error body
whose id is not a key of the map: at most a status message is shown. -/
theorem dispatchLoop_unknown (env : Collaborators) (n : Nat) (s : LanguageServerProtocol)
    (res : ResponseMessage) (rest : String)
    (hs : s.m_state = eState.kInitialized)
    (hd : env.decode s.m_outputBuffer = (some res, rest))
    (he : res.HasError = false)
    (hk : mapHas s.m_Queue.m_pendingReplyMessages res.GetId = false) :
    dispatchLoop env (n + 1) s =
      if res.IsPushDiagnostics = true then
        { s with m_outputBuffer := rest,
                 statusMessages := s.statusMessages ++
                   ["[LSP] parsing of file: " ++ res.uriFullName ++ " is completed"] }
      else { s with m_outputBuffer := rest } := by
  unfold dispatchLoop
  simp only [hd, IsInitialized, hs, he, Take_absent _ _ hk]
  by_cases hp : res.IsPushDiagnostics = true <;> simp [hp]

/-- The shape of `OnNetDataReady`: buffer the chunk, clear the flag, run the
loop, then `ProcessQueue`. -/
theorem OnNetDataReady_eq (env : Collaborators) (s : LanguageServerProtocol) (chunk : String) :
    OnNetDataReady env s chunk =
      ProcessQueue (dispatchLoop env (s.m_Queue.m_pendingReplyMessages.length + 1)
        { s with m_outputBuffer := s.m_outputBuffer ++ chunk,
                 m_Queue := s.m_Queue.SetWaitingReponse false }) := rfl

end LSP

namespace LSP

open LanguageServerProtocol LSPRequestMessageQueue

/-! ## What editor calls issue -/

theorem ProcessQueue_issued (s : LanguageServerProtocol) :
    issued s.ProcessQueue = issued s := by
  rcases ProcessQueue_cases s with h | ⟨req, rest, hq, hw, hr, _⟩
  · rw [h]
  · simp [issued, hw, hr, hq]

theorem Push_list (q : LSPRequestMessageQueue) (m : RequestMessage) :
    (q.Push m).m_Queue = q.m_Queue ++ [m] ∧
    (q.Push m).m_waitingReponse = q.m_waitingReponse := by
  cases hn : m.IsNeedsReply <;> simp [Push, hn]

theorem QueueMessage_issued (s : LanguageServerProtocol) (request : RequestMessage)
    (hs : s.m_state = eState.kInitialized) :
    issued (s.QueueMessage request) = issued s ++ [request] := by
  rw [QueueMessage_init s request hs, ProcessQueue_issued]
  simp [issued, (Push_list s.m_Queue request).1]

/-- The fields `QueueMessage` never touches, in any state. -/
theorem QueueMessage_frame (s : LanguageServerProtocol) (request : RequestMessage) :
    (s.QueueMessage request).m_state = s.m_state ∧
    (s.QueueMessage request).m_filesSent = s.m_filesSent ∧
    (s.QueueMessage request).m_languages = s.m_languages ∧
    (s.QueueMessage request).lastRequestId = s.lastRequestId ∧
    (s.QueueMessage request).m_network.connected = s.m_network.connected := by
  cases hs : s.m_state with
  | kUnInitialized => rw [QueueMessage_uninit s request hs]; simp [hs]
  | kInitialized =>
    rw [QueueMessage_init s request hs]
    obtain ⟨h1, -, -, -, h5, -⟩ := ProcessQueue_frame { s with m_Queue := s.m_Queue.Push request }
    obtain ⟨g1, g2, -, g4, -⟩ := ProcessQueue_frame2 { s with m_Queue := s.m_Queue.Push request }
    rw [h1, h5, g1, g2, g4]
    exact ⟨hs, rfl, rfl, rfl, rfl⟩

/-- On a connected transport with nothing queued and nothing in flight, a
queued message is written at once and the queue is empty again. -/
theorem QueueMessage_drains (s : LanguageServerProtocol) (request : RequestMessage)
    (hs : s.m_state = eState.kInitialized) (hc : s.m_network.connected = true)
    (hq : s.m_Queue.m_Queue = []) (hw : s.m_Queue.m_waitingReponse = false) :
    (s.QueueMessage request).m_Queue.m_Queue = [] ∧
    (s.QueueMessage request).m_Queue.m_waitingReponse = false ∧
    (s.QueueMessage request).m_network.written = s.m_network.written ++ [request] := by
  rw [QueueMessage_init s request hs]
  have hq1 : ({ s with m_Queue := s.m_Queue.Push request } : LanguageServerProtocol).m_Queue.m_Queue
      = request :: [] := by
    simp [(Push_list s.m_Queue request).1, hq]
  have hw1 : ({ s with m_Queue := s.m_Queue.Push request } :
      LanguageServerProtocol).m_Queue.m_waitingReponse = false := by
    simp [(Push_list s.m_Queue request).2, hw]
  rw [ProcessQueue_send _ request [] hq1 hw1 hc]
  exact ⟨rfl, rfl, rfl⟩

theorem syncBeforeQuery_issued (env : Collaborators) (s : LanguageServerProtocol)
    (ed : IEditor) (hs : s.m_state = eState.kInitialized) :
    issued (syncBeforeQuery env s ed) = issued s ++ syncOf env s ed := by
  unfold syncBeforeQuery syncOf SendChangeRequest SendOpenRequest
  dsimp only
  by_cases h1 : (s.m_filesSent.contains ed.GetFileName.GetFullPath && ed.IsModified) = true
  · rw [if_pos h1, if_pos h1]
    exact QueueMessage_issued s _ hs
  · rw [if_neg h1, if_neg h1]
    by_cases h2 : (!s.m_filesSent.contains ed.GetFileName.GetFullPath) = true
    · rw [if_pos h2, if_pos h2]
      exact QueueMessage_issued s _ hs
    · rw [if_neg h2, if_neg h2, List.append_nil]

theorem syncBeforeQuery_frame (env : Collaborators) (s : LanguageServerProtocol)
    (ed : IEditor) :
    (syncBeforeQuery env s ed).m_state = s.m_state ∧
    (syncBeforeQuery env s ed).m_filesSent = s.m_filesSent ∧
    (syncBeforeQuery env s ed).m_languages = s.m_languages ∧
    (syncBeforeQuery env s ed).lastRequestId = s.lastRequestId ∧
    (syncBeforeQuery env s ed).m_network.connected = s.m_network.connected := by
  unfold syncBeforeQuery SendChangeRequest SendOpenRequest
  dsimp only
  by_cases h1 : (s.m_filesSent.contains ed.GetFileName.GetFullPath && ed.IsModified) = true
  · rw [if_pos h1]
    exact QueueMessage_frame s _
  · rw [if_neg h1]
    by_cases h2 : (!s.m_filesSent.contains ed.GetFileName.GetFullPath) = true
    · rw [if_pos h2]
      exact QueueMessage_frame s _
    · rw [if_neg h2]
      exact ⟨rfl, rfl, rfl, rfl, rfl⟩

/-- What each of the three queries issues on a handled file in an initialized
session: the synchronisation notifications, then the query request. -/
theorem query_issued (env : Collaborators) (s : LanguageServerProtocol) (ed : IEditor)
    (hs : s.m_state = eState.kInitialized)
    (hh : ShouldHandleFile env s ed.GetFileName = true) :
    issued (FindDefinition env s (some ed)) = issued s ++ syncOf env s ed ++
      [queryOf s (RequestKind.GotoDefinitionRequest ed.GetFileName ed.GetCurrentLine
        ed.GetColumn)] ∧
    issued (FindDeclaration env s (some ed)) = issued s ++ syncOf env s ed ++
      [queryOf s (RequestKind.GotoDeclarationRequest ed.GetFileName ed.GetCurrentLine
        ed.GetColumn)] ∧
    issued (CodeComplete env s (some ed)) = issued s ++ syncOf env s ed ++
      [queryOf s (RequestKind.CompletionRequest ed.GetFileName ed.GetCurrentLine
        ed.GetColumn)] := by
  obtain ⟨f1, -, f3, f4, -⟩ := syncBeforeQuery_frame env s ed
  have hi := syncBeforeQuery_issued env s ed hs
  have hs1 : (syncBeforeQuery env s ed).m_state = eState.kInitialized := by rw [f1, hs]
  have hh1 : ShouldHandleFile env (syncBeforeQuery env s ed) ed.GetFileName = true := by
    simpa [ShouldHandleFile, f3] using hh
  have key : ∀ kind : RequestKind,
      issued (QueueMessage
        { syncBeforeQuery env s ed with
          lastRequestId := (syncBeforeQuery env s ed).lastRequestId + 1 }
        ⟨(syncBeforeQuery env s ed).lastRequestId + 1, true, "", kind⟩)
      = issued s ++ syncOf env s ed ++ [queryOf s kind] := by
    intro kind
    refine Eq.trans (QueueMessage_issued
      { syncBeforeQuery env s ed with
        lastRequestId := (syncBeforeQuery env s ed).lastRequestId + 1 } _ hs1) ?_
    show issued (syncBeforeQuery env s ed) ++ _ = _
    rw [hi, f4]
    rfl
  refine ⟨?_, ?_, ?_⟩
  · simp only [FindDefinition, hh, Bool.not_true, Bool.false_eq_true, if_false, MakeRequest]
    exact key _
  · simp only [FindDeclaration, hh, Bool.not_true, Bool.false_eq_true, if_false, MakeRequest]
    exact key _
  · simp only [CodeComplete, hh, Bool.not_true, Bool.false_eq_true, if_false,
      SendCodeCompleteRequest, hh1, if_true, MakeRequest]
    exact key _

end LSP

namespace LSP

open LanguageServerProtocol LSPRequestMessageQueue

theorem syncOf_cases (env : Collaborators) (s : LanguageServerProtocol) (ed : IEditor) :
    (s.m_filesSent.contains ed.GetFileName.GetFullPath = false ∧
      syncOf env s ed = [didOpenOf env ed]) ∨
    (s.m_filesSent.contains ed.GetFileName.GetFullPath = true ∧ ed.IsModified = true ∧
      syncOf env s ed = [didChangeOf ed]) ∨
    (s.m_filesSent.contains ed.GetFileName.GetFullPath = true ∧ ed.IsModified = false ∧
      syncOf env s ed = []) := by
  unfold syncOf
  cases hc : s.m_filesSent.contains ed.GetFileName.GetFullPath <;>
    cases hm : ed.IsModified <;> simp

theorem syncBeforeQuery_open (env : Collaborators) (s : LanguageServerProtocol) (ed : IEditor)
    (hn : s.m_filesSent.contains ed.GetFileName.GetFullPath = false) :
    syncBeforeQuery env s ed = s.QueueMessage (didOpenOf env ed) := by
  unfold syncBeforeQuery SendChangeRequest SendOpenRequest
  dsimp only
  rw [hn]
  rfl

/-- `SendCloseRequest` is the only member function that changes the sent-set
besides `DoClear`; the queries and `OpenEditor` leave it as it is. -/
theorem editor_calls_keep_filesSent (env : Collaborators) (s : LanguageServerProtocol)
    (editor : Option IEditor) :
    (FindDefinition env s editor).m_filesSent = s.m_filesSent ∧
    (FindDeclaration env s editor).m_filesSent = s.m_filesSent ∧
    (CodeComplete env s editor).m_filesSent = s.m_filesSent ∧
    (OpenEditor env s editor).m_filesSent = s.m_filesSent := by
  cases editor with
  | none =>
    refine ⟨rfl, rfl, rfl, ?_⟩
    unfold OpenEditor
    split <;> rfl
  | some ed =>
    have f2 := (syncBeforeQuery_frame env s ed).2.1
    refine ⟨?_, ?_, ?_, ?_⟩
    · simp only [FindDefinition, MakeRequest]
      split
      · rfl
      · rw [(QueueMessage_frame _ _).2.1]
        exact f2
    · simp only [FindDeclaration, MakeRequest]
      split
      · rfl
      · rw [(QueueMessage_frame _ _).2.1]
        exact f2
    · simp only [CodeComplete, SendCodeCompleteRequest, MakeRequest]
      split
      · rfl
      · split
        · rw [(QueueMessage_frame _ _).2.1]
          exact f2
        · exact f2
    · simp only [OpenEditor, SendChangeRequest, SendOpenRequest]
      split
      · rfl
      · split
        · split
          · exact (QueueMessage_frame _ _).2.1
          · exact (QueueMessage_frame _ _).2.1
        · rfl

end LSP

namespace LSP

open LanguageServerProtocol LSPRequestMessageQueue

/-! ## Invariants over the events of a session -/

theorem KeepsCore.refl (s : LanguageServerProtocol) : KeepsCore s s :=
  ⟨rfl, rfl, id⟩

theorem KeepsCore.trans {s t u : LanguageServerProtocol} (h1 : KeepsCore s t)
    (h2 : KeepsCore t u) : KeepsCore s u :=
  ⟨h2.1.trans h1.1, h2.2.1.trans h1.2.1, fun h => h2.2.2 (h1.2.2 h)⟩

theorem KeepsCore.inv {s t : LanguageServerProtocol} (h : KeepsCore s t) :
    (HandshakeInv s → HandshakeInv t) ∧ (s.m_filesSent = [] → t.m_filesSent = []) := by
  refine ⟨fun hi ht => ?_, h.2.2⟩
  rw [h.2.1]
  exact hi (h.1 ▸ ht)

theorem QueueMessage_keeps (s : LanguageServerProtocol) (request : RequestMessage) :
    KeepsCore s (s.QueueMessage request) := by
  cases hs : s.m_state with
  | kUnInitialized =>
    rw [QueueMessage_uninit s request hs]
    exact KeepsCore.refl s
  | kInitialized =>
    rw [QueueMessage_init s request hs]
    obtain ⟨h1, h2, -, -, h5, -⟩ := ProcessQueue_frame { s with m_Queue := s.m_Queue.Push request }
    exact ⟨h1, h2, fun h => h5.trans h⟩

theorem syncBeforeQuery_keeps (env : Collaborators) (s : LanguageServerProtocol)
    (ed : IEditor) : KeepsCore s (syncBeforeQuery env s ed) := by
  unfold syncBeforeQuery SendChangeRequest SendOpenRequest
  dsimp only
  by_cases h1 : (s.m_filesSent.contains ed.GetFileName.GetFullPath && ed.IsModified) = true
  · rw [if_pos h1]
    exact QueueMessage_keeps s _
  · rw [if_neg h1]
    by_cases h2 : (!s.m_filesSent.contains ed.GetFileName.GetFullPath) = true
    · rw [if_pos h2]
      exact QueueMessage_keeps s _
    · rw [if_neg h2]
      exact KeepsCore.refl s

theorem SendCloseRequest_keeps (s : LanguageServerProtocol) (filename : wxFileName) :
    KeepsCore s (s.SendCloseRequest filename) := by
  unfold SendCloseRequest
  cases hc : s.m_filesSent.contains filename.GetFullPath
  · exact KeepsCore.refl s
  · obtain ⟨k1, k2, -⟩ := QueueMessage_keeps s
      (MakeNotification (RequestKind.DidCloseTextDocumentRequest filename) "")
    refine ⟨k1, k2, fun h => ?_⟩
    rw [h] at hc
    cases hc

/-- A query: the prologue, a fresh request, `QueueMessage`. -/
theorem query_keeps (env : Collaborators) (s : LanguageServerProtocol) (ed : IEditor)
    (kind : RequestKind) :
    KeepsCore s (QueueMessage (MakeRequest (syncBeforeQuery env s ed) kind).2
      (MakeRequest (syncBeforeQuery env s ed) kind).1) :=
  (syncBeforeQuery_keeps env s ed).trans
    (KeepsCore.trans (t := (MakeRequest (syncBeforeQuery env s ed) kind).2) ⟨rfl, rfl, id⟩
      (QueueMessage_keeps _ _))

theorem editor_calls_keep_core (env : Collaborators) (s : LanguageServerProtocol)
    (editor : Option IEditor) (filename : wxFileName) :
    KeepsCore s (FindDefinition env s editor) ∧
    KeepsCore s (FindDeclaration env s editor) ∧
    KeepsCore s (CodeComplete env s editor) ∧
    KeepsCore s (OpenEditor env s editor) ∧
    KeepsCore s (CloseEditor env s editor) ∧
    KeepsCore s (OnFileSaved env s editor) ∧
    KeepsCore s (s.OnFileClosed filename) := by
  refine ⟨?_, ?_, ?_, ?_, ?_, ?_, SendCloseRequest_keeps s filename⟩
  · cases editor with
    | none => exact KeepsCore.refl s
    | some ed =>
      simp only [FindDefinition]
      split
      · exact KeepsCore.refl s
      · exact query_keeps env s ed _
  · cases editor with
    | none => exact KeepsCore.refl s
    | some ed =>
      simp only [FindDeclaration]
      split
      · exact KeepsCore.refl s
      · exact query_keeps env s ed _
  · cases editor with
    | none => exact KeepsCore.refl s
    | some ed =>
      simp only [CodeComplete, SendCodeCompleteRequest]
      split
      · exact KeepsCore.refl s
      · split
        · exact query_keeps env s ed _
        · exact syncBeforeQuery_keeps env s ed
  · unfold OpenEditor
    split
    · exact KeepsCore.refl s
    · cases editor with
      | none => exact KeepsCore.refl s
      | some ed =>
        simp only [SendChangeRequest, SendOpenRequest]
        split
        · split
          · exact QueueMessage_keeps s _
          · exact QueueMessage_keeps s _
        · exact KeepsCore.refl s
  · unfold CloseEditor
    split
    · exact KeepsCore.refl s
    · cases editor with
      | none => exact KeepsCore.refl s
      | some ed =>
        simp only
        split
        · exact SendCloseRequest_keeps s _
        · exact KeepsCore.refl s
  · cases editor with
    | none => exact KeepsCore.refl s
    | some ed =>
      simp only [OnFileSaved, SendSaveRequest, SendChangeRequest]
      split
      · exact QueueMessage_keeps s _
      · exact KeepsCore.refl s

end LSP

namespace LSP

open LanguageServerProtocol LSPRequestMessageQueue

/-- The loop of `OnNetDataReady` never touches the sent-set and keeps the
invariant on the handshake id. -/
theorem dispatchLoop_keeps (env : Collaborators) :
    ∀ (n : Nat) (s : LanguageServerProtocol),
      (dispatchLoop env n s).m_filesSent = s.m_filesSent ∧
      (HandshakeInv s → HandshakeInv (dispatchLoop env n s)) := by
  intro n
  induction n with
  | zero => intro s; exact ⟨rfl, id⟩
  | succ n ih =>
    intro s
    unfold dispatchLoop
    rcases hd : env.decode s.m_outputBuffer with ⟨_ | res, buf⟩
    · exact ⟨rfl, id⟩
    · simp only
      cases hi : IsInitialized { s with m_outputBuffer := buf } with
      | false =>
        have hst : s.m_state = eState.kUnInitialized := by
          cases h : s.m_state with
          | kUnInitialized => rfl
          | kInitialized => simp [IsInitialized, h] at hi
        simp only [Bool.false_eq_true, if_false]
        split
        · exact ⟨rfl, fun _ _ => rfl⟩
        · exact ⟨rfl, id⟩
      | true =>
        simp only [if_true]
        rcases ht : s.m_Queue.TakePendingReplyMessage res.GetId with ⟨o, q⟩
        simp only
        cases he : res.HasError
        · simp only [Bool.false_eq_true, if_false]
          cases o with
          | none =>
            simp only
            split <;> exact ⟨rfl, id⟩
          | some msg =>
            simp only
            split
            · obtain ⟨a1, a2⟩ := ih
                { s with m_outputBuffer := buf, m_Queue := q,
                         onResponseCalls := s.onResponseCalls ++ [(msg, res)] }
              exact ⟨a1, fun h => a2 h⟩
            · exact ⟨rfl, id⟩
        · simp only [if_true]
          (repeat' split) <;> exact ⟨rfl, id⟩

theorem OnNetDataReady_keeps (env : Collaborators) (s : LanguageServerProtocol)
    (chunk : String) :
    (OnNetDataReady env s chunk).m_filesSent = s.m_filesSent ∧
    (HandshakeInv s → HandshakeInv (OnNetDataReady env s chunk)) := by
  rw [OnNetDataReady_eq]
  obtain ⟨f1, f2, -, -, f5, -⟩ := ProcessQueue_frame
    (dispatchLoop env (s.m_Queue.m_pendingReplyMessages.length + 1)
      { s with m_outputBuffer := s.m_outputBuffer ++ chunk,
               m_Queue := s.m_Queue.SetWaitingReponse false })
  obtain ⟨a1, a2⟩ := dispatchLoop_keeps env (s.m_Queue.m_pendingReplyMessages.length + 1)
    { s with m_outputBuffer := s.m_outputBuffer ++ chunk,
             m_Queue := s.m_Queue.SetWaitingReponse false }
  refine ⟨f5.trans a1, fun h ht => ?_⟩
  rw [f2]
  exact a2 h (f1 ▸ ht)

/-- `DoStart` and everything built on it end uninitialized with an empty
sent-set. -/
theorem DoStart_cleared (s : LanguageServerProtocol) :
    s.DoStart.m_state = eState.kUnInitialized ∧ s.DoStart.m_filesSent = [] := by
  unfold DoStart
  simp only
  split <;> exact ⟨rfl, rfl⟩

theorem Start_keeps (s : LanguageServerProtocol) :
    (HandshakeInv s → HandshakeInv s.Start) ∧ (s.m_filesSent = [] → s.Start.m_filesSent = []) := by
  unfold Start
  split
  · exact ⟨id, id⟩
  · obtain ⟨h1, h2⟩ := DoStart_cleared s
    exact ⟨fun _ ht => (by rw [h1] at ht; cases ht), fun _ => h2⟩

theorem StartWith_keeps (s : LanguageServerProtocol) (h c w r : String) (l : List String)
    (f : Nat) :
    (HandshakeInv s → HandshakeInv (StartWith s h c w r l f)) ∧
    (s.m_filesSent = [] → (StartWith s h c w r l f).m_filesSent = []) := by
  unfold StartWith
  split
  · exact ⟨id, id⟩
  · simp only
    exact ⟨fun _ ht => (by rw [(DoStart_cleared _).1] at ht; cases ht),
      fun _ => (DoStart_cleared _).2⟩

theorem stepSession_keeps (env : Collaborators) (s : LanguageServerProtocol)
    (e : SessionEvent) :
    (HandshakeInv s → HandshakeInv (stepSession env s e)) ∧
    (s.m_filesSent = [] → (stepSession env s e).m_filesSent = []) := by
  cases e with
  | start => exact Start_keeps s
  | startWith h c w r l f => exact StartWith_keeps s h c w r l f
  | stop => exact ⟨id, id⟩
  | setName name => exact ⟨id, id⟩
  | netConnected =>
    refine ⟨fun _ ht => ?_, fun h => ?_⟩
    · have : (stepSession env s SessionEvent.netConnected).m_state = eState.kUnInitialized := rfl
      rw [this] at ht
      cases ht
    · exact ((QueueMessage_keeps _ _).2.2 h)
  | netDataReady chunk =>
    obtain ⟨a1, a2⟩ := OnNetDataReady_keeps env s chunk
    exact ⟨a2, fun h => a1.trans h⟩
  | netError =>
    exact ⟨fun _ ht => (by cases ht), fun _ => rfl⟩
  | transportState b => exact ⟨id, id⟩
  | findDefinition editor => exact (editor_calls_keep_core env s editor ⟨"", ""⟩).1.inv
  | findDeclaration editor => exact (editor_calls_keep_core env s editor ⟨"", ""⟩).2.1.inv
  | codeComplete editor => exact (editor_calls_keep_core env s editor ⟨"", ""⟩).2.2.1.inv
  | openEditor editor => exact (editor_calls_keep_core env s editor ⟨"", ""⟩).2.2.2.1.inv
  | closeEditor editor => exact (editor_calls_keep_core env s editor ⟨"", ""⟩).2.2.2.2.1.inv
  | fileLoaded active => exact (editor_calls_keep_core env s active ⟨"", ""⟩).2.2.2.1.inv
  | fileClosed filename => exact (editor_calls_keep_core env s none filename).2.2.2.2.2.2.inv
  | fileSaved active => exact (editor_calls_keep_core env s active ⟨"", ""⟩).2.2.2.2.2.1.inv
  | workspaceClosed => exact Start_keeps ({ s with m_rootFolder := "" } : LanguageServerProtocol).Stop
  | workspaceOpen path =>
    exact Start_keeps ({ s with m_rootFolder := path } : LanguageServerProtocol).Stop

theorem runSession_keeps (env : Collaborators) (events : List SessionEvent) :
    ∀ s : LanguageServerProtocol,
      (HandshakeInv s → HandshakeInv (runSession env s events)) ∧
      (s.m_filesSent = [] → (runSession env s events).m_filesSent = []) := by
  induction events with
  | nil => intro s; exact ⟨id, id⟩
  | cons e t ih =>
    intro s
    obtain ⟨a1, a2⟩ := stepSession_keeps env s e
    obtain ⟨b1, b2⟩ := ih (stepSession env s e)
    exact ⟨fun h => b1 (a1 h), fun h => b2 (a2 h)⟩

end LSP

namespace LSP

open LanguageServerProtocol LSPRequestMessageQueue

/-! ## The iteration count of the inbound loop -/

/-- The counting loop computes the state the loop computes. -/
theorem dispatchLoopTrace_state (env : Collaborators) :
    ∀ (n : Nat) (s : LanguageServerProtocol),
      (dispatchLoopTrace env n s).1 = dispatchLoop env n s := by
  intro n
  induction n with
  | zero => intro s; rfl
  | succ n ih =>
    intro s
    unfold dispatchLoopTrace dispatchLoop
    rcases hd : env.decode s.m_outputBuffer with ⟨_ | res, buf⟩
    · rfl
    · simp only
      cases hi : IsInitialized { s with m_outputBuffer := buf }
      · simp only [Bool.false_eq_true, if_false]
        split <;> rfl
      · simp only [if_true]
        rcases ht : (s.m_Queue.TakePendingReplyMessage res.GetId) with ⟨_ | msg, q⟩
        · simp only
          (repeat' split) <;> rfl
        · simp only
          cases he : res.HasError
          · simp only [Bool.false_eq_true, if_false]
            split
            · exact ih _
            · rfl
          · simp only [if_true]
            (repeat' split) <;> rfl

/-- The body never runs more often than the bound allows. -/
theorem dispatchLoopTrace_count_le (env : Collaborators) :
    ∀ (n : Nat) (s : LanguageServerProtocol), (dispatchLoopTrace env n s).2 ≤ n := by
  intro n
  induction n with
  | zero => intro s; exact Nat.le_refl 0
  | succ n ih =>
    intro s
    unfold dispatchLoopTrace
    rcases hd : env.decode s.m_outputBuffer with ⟨_ | res, buf⟩
    · simp
    · simp only
      cases hi : IsInitialized { s with m_outputBuffer := buf }
      · simp only [Bool.false_eq_true, if_false]
        split <;> simp
      · simp only [if_true]
        rcases ht : (s.m_Queue.TakePendingReplyMessage res.GetId) with ⟨_ | msg, q⟩
        · simp only
          (repeat' split) <;> simp
        · simp only
          cases he : res.HasError
          · simp only [Bool.false_eq_true, if_false]
            split
            · exact Nat.succ_le_succ (ih _)
            · simp
          · simp only [if_true]
            (repeat' split) <;> simp

/-- The bound used by `OnNetDataReady` does not cut the count short. -/
theorem dispatchLoopTrace_bound_irrelevant (env : Collaborators) :
    ∀ (n m : Nat) (s : LanguageServerProtocol),
      s.m_Queue.m_pendingReplyMessages.length < n →
      s.m_Queue.m_pendingReplyMessages.length < m →
      dispatchLoopTrace env n s = dispatchLoopTrace env m s := by
  intro n
  induction n with
  | zero => intro m s hn _; omega
  | succ n ih =>
    intro m s hn hm
    cases m with
    | zero => omega
    | succ m =>
      unfold dispatchLoopTrace
      rcases hd : env.decode s.m_outputBuffer with ⟨_ | res, buf⟩
      · rfl
      · simp only
        cases hi : IsInitialized { s with m_outputBuffer := buf }
        · rfl
        · simp only [if_true]
          cases he : res.HasError
          · simp only [Bool.false_eq_true, if_false]
            rcases ht : (s.m_Queue.TakePendingReplyMessage res.GetId) with ⟨_ | msg, q⟩
            · rfl
            · simp only
              have hlen := Take_some_length s.m_Queue res.GetId msg (by rw [ht])
              rw [ht] at hlen
              simp only at hlen
              split
              · rw [ih m _ (by simp only; omega) (by simp only; omega)]
              · rfl
          · rfl

/-- With a codec that shortens the buffer with every message it decodes, the
body runs at most once more than there are complete messages in the buffer. -/
theorem dispatchLoopTrace_count_le_messages (env : Collaborators)
    (hshrink : ∀ b m r, env.decode b = (some m, r) → r.length < b.length) :
    ∀ (n : Nat) (s : LanguageServerProtocol) (k : Nat), s.m_outputBuffer.length ≤ k →
      (dispatchLoopTrace env n s).2 ≤ completeMessages env k s.m_outputBuffer + 1 := by
  intro n
  induction n with
  | zero => intro s k _; exact Nat.zero_le _
  | succ n ih =>
    intro s k hk
    unfold dispatchLoopTrace
    rcases hd : env.decode s.m_outputBuffer with ⟨_ | res, buf⟩
    · simp
    · simp only
      cases hi : IsInitialized { s with m_outputBuffer := buf }
      · simp only [Bool.false_eq_true, if_false]
        split <;> simp
      · simp only [if_true]
        rcases ht : (s.m_Queue.TakePendingReplyMessage res.GetId) with ⟨_ | msg, q⟩
        · simp only
          (repeat' split) <;> simp
        · simp only
          cases he : res.HasError
          · simp only [Bool.false_eq_true, if_false]
            split
            · have hlt := hshrink _ _ _ hd
              cases k with
              | zero => omega
              | succ k =>
                have hcm : completeMessages env (k + 1) s.m_outputBuffer
                    = completeMessages env k buf + 1 := by
                  rw [completeMessages, hd]
                rw [hcm]
                exact Nat.succ_le_succ (ih _ k (by simp only; omega))
            · simp
          · simp only [if_true]
            (repeat' split) <;> simp

end LSP

namespace LSP

open LanguageServerProtocol LSPRequestMessageQueue

/-- The one-character codec removes a character with every message. -/
theorem exStreamEnv_shrinks :
    ∀ b m r, exStreamEnv.decode b = (some m, r) → r.length < b.length := by
  intro b m r h
  unfold exStreamEnv at h
  simp only at h
  cases hb : b.data with
  | nil => rw [hb] at h; cases h
  | cons c t =>
    rw [hb] at h
    simp only [Prod.mk.injEq] at h
    rw [← h.2]
    show t.length < b.data.length
    rw [hb]
    exact Nat.lt_succ_self _

end LSP

namespace LSP

open LanguageServerProtocol LSPRequestMessageQueue

/-! ## Further facts used by the claims on the sent-set -/

/-- After `TakePendingReplyMessage(id)` the id is not a key, and every other key
is mapped as before, whether or not the id was a key. -/
theorem Take_index_facts (q : LSPRequestMessageQueue) (id : Int) :
    mapHas (q.TakePendingReplyMessage id).2.m_pendingReplyMessages id = false ∧
    ∀ k, k ≠ id →
      mapFind (q.TakePendingReplyMessage id).2.m_pendingReplyMessages k
        = mapFind q.m_pendingReplyMessages k := by
  cases hk : mapHas q.m_pendingReplyMessages id with
  | false =>
    rw [Take_absent q id hk]
    exact ⟨hk, fun _ _ => rfl⟩
  | true =>
    rw [Take_present q id hk]
    exact ⟨mapHas_mapErase_self _ _, fun k hkk => by simp [mapFind_mapErase, hkk]⟩

end LSP

namespace LSP

open LanguageServerProtocol LSPRequestMessageQueue

/-! ## Claims on the request queue -/

/-- C1 (what the code does): with a request at the head of the queue, the
waiting flag false and a connected transport, `ProcessQueue` writes the head
request, but `Pop` resets the flag that was just set, so the flag is false
afterwards and a second `ProcessQueue` call, with no data-ready event in
between, writes the next queued request as well. -/
theorem C1_ProcessQueue_flag_reset_by_Pop (s : LanguageServerProtocol)
    (r1 r2 : RequestMessage) (rest : List RequestMessage)
    (hq : s.m_Queue.m_Queue = r1 :: r2 :: rest)
    (hw : s.m_Queue.m_waitingReponse = false) (hc : s.m_network.connected = true) :
    (s.ProcessQueue).m_network.written = s.m_network.written ++ [r1] ∧
    (s.ProcessQueue).m_Queue.m_waitingReponse = false ∧
    (s.ProcessQueue.ProcessQueue).m_network.written = s.m_network.written ++ [r1, r2] := by
  have h1 := ProcessQueue_send s r1 (r2 :: rest) hq hw hc
  have hq1 : (s.ProcessQueue).m_Queue.m_Queue = r2 :: rest := by rw [h1]
  have hw1 : (s.ProcessQueue).m_Queue.m_waitingReponse = false := by rw [h1]
  have hc1 : (s.ProcessQueue).m_network.connected = true := by rw [h1]; exact hc
  have hwr : (s.ProcessQueue).m_network.written = s.m_network.written ++ [r1] := by rw [h1]
  refine ⟨hwr, hw1, ?_⟩
  rw [ProcessQueue_send _ r2 rest hq1 hw1 hc1]
  simp [hwr]

/-- Concrete run: an open notification and a goto-definition request are queued;
two consecutive `ProcessQueue` calls write both. -/
theorem C1_ProcessQueue_flag_reset_by_Pop_witness :
    (exTwoQueued.ProcessQueue).m_network.written = [] ++ [exOpen] ∧
    (exTwoQueued.ProcessQueue).m_Queue.m_waitingReponse = false ∧
    (exTwoQueued.ProcessQueue.ProcessQueue).m_network.written = [] ++ [exOpen, exGoto] :=
  C1_ProcessQueue_flag_reset_by_Pop exTwoQueued exOpen exGoto [] rfl rfl rfl

/-- What has been written followed by what is still queued only ever grows by the
pushed requests, at the tail. -/
theorem runSteps_written_append_queue (steps : List QueueStep) (s : LanguageServerProtocol) :
    (runSteps s steps).m_network.written ++ (runSteps s steps).m_Queue.m_Queue =
      s.m_network.written ++ s.m_Queue.m_Queue ++ pushedBy steps := by
  induction steps generalizing s with
  | nil => simp [runSteps, pushedBy]
  | cons st t ih =>
    have hrun : runSteps s (st :: t) = runSteps (applyStep s st) t := rfl
    rw [hrun, ih]
    cases st with
    | push message =>
      have hq : (applyStep s (QueueStep.push message)).m_Queue.m_Queue
          = s.m_Queue.m_Queue ++ [message] := by
        cases hn : message.IsNeedsReply <;> simp [applyStep, LSPRequestMessageQueue.Push, hn]
      have hn : (applyStep s (QueueStep.push message)).m_network = s.m_network := rfl
      rw [hq, hn]
      simp [pushedBy]
    | processQueue =>
      rcases ProcessQueue_cases s with h | ⟨req, rest, hq, hw, hr, _⟩
      · simp [applyStep, h, pushedBy]
      · simp [applyStep, hw, hr, hq, pushedBy]

/-- C2: starting with an empty pending list, on a transport that is connected
(or not), after any sequence of `Push` and `ProcessQueue` steps the requests written to the
transport since the start are an initial segment of the requests pushed, in
push order; and any single `ProcessQueue` call, in any state, appends at most
one request to what was written. -/
theorem C2_fifo_sending (s : LanguageServerProtocol) (steps : List QueueStep)
    (hq : s.m_Queue.m_Queue = []) :
    (∃ w, (runSteps s steps).m_network.written = s.m_network.written ++ w ∧
        w <+: pushedBy steps) ∧
    (∀ t : LanguageServerProtocol, ∃ w, (t.ProcessQueue).m_network.written
        = t.m_network.written ++ w ∧ w.length ≤ 1) := by
  constructor
  · have h := runSteps_written_append_queue steps s
    rw [hq, List.append_nil] at h
    have hle : s.m_network.written <+: (runSteps s steps).m_network.written := by
      clear h hq
      induction steps generalizing s with
      | nil => exact ⟨[], by simp [runSteps]⟩
      | cons st t ih =>
        have hrun : runSteps s (st :: t) = runSteps (applyStep s st) t := rfl
        rw [hrun]
        refine List.IsPrefix.trans ?_ (ih (applyStep s st))
        cases st with
        | push message => exact ⟨[], by simp [applyStep]⟩
        | processQueue =>
          rcases ProcessQueue_cases s with h | ⟨req, rest, _, hw, _, _⟩
          · exact ⟨[], by simp [applyStep, h]⟩
          · exact ⟨[req], by simp [applyStep, hw]⟩
    obtain ⟨w, hw⟩ := hle
    refine ⟨w, hw.symm, (runSteps s steps).m_Queue.m_Queue, ?_⟩
    rw [← hw, List.append_assoc] at h
    exact List.append_cancel_left h
  · intro t
    rcases ProcessQueue_cases t with h | ⟨req, rest, _, hw, _, _⟩
    · exact ⟨[], by simp [h]⟩
    · exact ⟨[req], hw, by simp⟩

/-- Concrete run: two pushes followed by one `ProcessQueue`. -/
theorem C2_fifo_sending_witness :
    exSession.m_Queue.m_Queue = [] ∧
    ((∃ w, (runSteps exSession [QueueStep.push exOpen, QueueStep.push exGoto,
          QueueStep.processQueue]).m_network.written = exSession.m_network.written ++ w ∧
        w <+: pushedBy [QueueStep.push exOpen, QueueStep.push exGoto,
          QueueStep.processQueue]) ∧
     (∀ t : LanguageServerProtocol, ∃ w, (t.ProcessQueue).m_network.written
        = t.m_network.written ++ w ∧ w.length ≤ 1)) :=
  ⟨rfl, C2_fifo_sending exSession
    [QueueStep.push exOpen, QueueStep.push exGoto, QueueStep.processQueue] rfl⟩

/-- C3: when the pending list is empty, or the waiting flag is true, or the
transport is not connected, `ProcessQueue` returns the session unchanged:
nothing is written, no status message is emitted, and the pending list, the
id map and the waiting flag are as before. -/
theorem C3_ProcessQueue_silent_noop (s : LanguageServerProtocol)
    (h : s.m_Queue.IsEmpty = true ∨ s.m_Queue.IsWaitingReponse = true
      ∨ s.m_network.IsConnected = false) :
    s.ProcessQueue = s ∧
    (s.ProcessQueue).m_network.written = s.m_network.written ∧
    (s.ProcessQueue).statusMessages = s.statusMessages ∧
    (s.ProcessQueue).m_Queue.m_Queue = s.m_Queue.m_Queue ∧
    (s.ProcessQueue).m_Queue.m_pendingReplyMessages = s.m_Queue.m_pendingReplyMessages ∧
    (s.ProcessQueue).m_Queue.m_waitingReponse = s.m_Queue.m_waitingReponse := by
  have hs : s.ProcessQueue = s := by
    apply ProcessQueue_idle
    rcases h with h | h | h
    · exact Or.inl (by simpa [LSPRequestMessageQueue.IsEmpty] using h)
    · exact Or.inr (Or.inl h)
    · exact Or.inr (Or.inr h)
  rw [hs]
  simp

/-- Concrete run: two requests queued on a closed transport. -/
theorem C3_ProcessQueue_silent_noop_witness :
    ({ exTwoQueued with m_network := exNetwork.Close }).m_network.IsConnected = false ∧
    ({ exTwoQueued with m_network := exNetwork.Close }).ProcessQueue
      = { exTwoQueued with m_network := exNetwork.Close } :=
  ⟨rfl, (C3_ProcessQueue_silent_noop { exTwoQueued with m_network := exNetwork.Close }
    (Or.inr (Or.inr rfl))).1⟩

/-- C4: `TakePendingReplyMessage` on a key of the id map returns the request
stored under it and leaves the map without that key and with every other key
mapped as before; on an id that is not a key it returns null and leaves the
queue object unchanged.  The pending list is the same in both cases. -/
theorem C4_TakePendingReplyMessage (q : LSPRequestMessageQueue) (msgid : Int) :
    (mapHas q.m_pendingReplyMessages msgid = true →
      (∃ r, mapFind q.m_pendingReplyMessages msgid = some r ∧
        (q.TakePendingReplyMessage msgid).1 = some r) ∧
      mapHas (q.TakePendingReplyMessage msgid).2.m_pendingReplyMessages msgid = false ∧
      ∀ k, k ≠ msgid →
        mapFind (q.TakePendingReplyMessage msgid).2.m_pendingReplyMessages k
          = mapFind q.m_pendingReplyMessages k) ∧
    (mapHas q.m_pendingReplyMessages msgid = false →
      (q.TakePendingReplyMessage msgid).1 = none ∧
      (q.TakePendingReplyMessage msgid).2 = q) ∧
    (q.TakePendingReplyMessage msgid).2.m_Queue = q.m_Queue := by
  refine ⟨?_, ?_, ?_⟩
  · intro h
    have hne : q.m_pendingReplyMessages.isEmpty = false := by
      cases hm : q.m_pendingReplyMessages with
      | nil => rw [hm] at h; simp [mapHas] at h
      | cons e t => rfl
    obtain ⟨r, hr⟩ := mapFind_isSome_of_mapHas _ _ h
    refine ⟨⟨r, hr, ?_⟩, ?_, ?_⟩
    · simp [TakePendingReplyMessage, hne, h, hr]
    · simp [TakePendingReplyMessage, hne, h, mapHas_mapErase_self]
    · intro k hk
      simp [TakePendingReplyMessage, hne, h, mapFind_mapErase, hk]
  · intro h
    unfold TakePendingReplyMessage
    cases q.m_pendingReplyMessages.isEmpty <;> simp [h]
  · unfold TakePendingReplyMessage
    cases q.m_pendingReplyMessages.isEmpty <;>
      cases mapHas q.m_pendingReplyMessages msgid <;> simp

/-- Concrete run: taking id 7 out of a map that holds it. -/
theorem C4_TakePendingReplyMessage_witness :
    mapHas exQueueHolding7.m_pendingReplyMessages 7 = true ∧
    (exQueueHolding7.TakePendingReplyMessage 7).1 = some exGoto ∧
    mapHas (exQueueHolding7.TakePendingReplyMessage 7).2.m_pendingReplyMessages 7 = false :=
  ⟨by decide,
   by
    obtain ⟨r, h1, h2⟩ := ((C4_TakePendingReplyMessage exQueueHolding7 7).1 (by decide)).1
    rw [h2, ← h1]
    decide,
   ((C4_TakePendingReplyMessage exQueueHolding7 7).1 (by decide)).2.1⟩

/-- C7 (as stated, refuted): the id map already holds a request under id 7; a
different request with id 7 that expects a reply is pushed;
`TakePendingReplyMessage(7)` then returns the request stored earlier, not the
one just pushed. -/
theorem C7_Push_keeps_existing_entry :
    exCompletion.IsNeedsReply = true ∧
    ((exQueueHolding7.Push exCompletion).TakePendingReplyMessage exCompletion.GetId).1
      = some exGoto ∧
    ((exQueueHolding7.Push exCompletion).TakePendingReplyMessage exCompletion.GetId).1
      ≠ some exCompletion := by
  decide

/-- C7 (amended): after `Push(m)` the pending list is the old list with `m`
appended at the tail; if `m` expects a reply, `TakePendingReplyMessage(m.id)`
returns `m` when the id map held no entry under `m.id`, and the entry already
stored under `m.id` otherwise; if `m` does not expect a reply the id map is
unchanged. -/
theorem C7_Push (q : LSPRequestMessageQueue) (m : RequestMessage) :
    (q.Push m).m_Queue = q.m_Queue ++ [m] ∧
    (m.IsNeedsReply = true →
      ((q.Push m).TakePendingReplyMessage m.GetId).1
        = some ((mapFind q.m_pendingReplyMessages m.GetId).getD m)) ∧
    (m.IsNeedsReply = true → mapHas q.m_pendingReplyMessages m.GetId = false →
      ((q.Push m).TakePendingReplyMessage m.GetId).1 = some m) ∧
    (m.IsNeedsReply = false →
      (q.Push m).m_pendingReplyMessages = q.m_pendingReplyMessages) := by
  have key : m.IsNeedsReply = true →
      ((q.Push m).TakePendingReplyMessage m.GetId).1
        = some ((mapFind q.m_pendingReplyMessages m.GetId).getD m) := by
    intro hn
    cases hh : mapHas q.m_pendingReplyMessages m.GetId with
    | true =>
      obtain ⟨r, hr⟩ := mapFind_isSome_of_mapHas _ _ hh
      have hne : q.m_pendingReplyMessages.isEmpty = false := by
        cases hm : q.m_pendingReplyMessages with
        | nil => rw [hm] at hh; simp [mapHas] at hh
        | cons e t => rfl
      simp [Push, hn, mapInsert, hh, TakePendingReplyMessage, hne, hr]
    | false =>
      have hnone := mapFind_eq_none_of_not_mapHas _ _ hh
      have hfind : mapFind (q.m_pendingReplyMessages ++ [(m.GetId, m)]) m.GetId = some m := by
        have hf : List.find? (fun e : Int × RequestMessage => e.1 == m.GetId)
            q.m_pendingReplyMessages = none := by
          simpa [mapHas] using hh
        simp [mapFind, List.find?_append, hf]
      have hhas : mapHas (q.m_pendingReplyMessages ++ [(m.GetId, m)]) m.GetId = true := by
        simp [mapHas]
      simp [Push, hn, mapInsert, hh, TakePendingReplyMessage, hhas, hfind, hnone]
  refine ⟨?_, key, ?_, ?_⟩
  · cases hn : m.IsNeedsReply <;> simp [Push, hn]
  · intro hn hh
    rw [key hn, mapFind_eq_none_of_not_mapHas _ _ hh]
    rfl
  · intro hn
    simp [Push, hn]

/-! ## Claims on the session -/

/-- C10: in an uninitialized session with stored handshake id `h`, a data-ready
event whose chunk completes a message with id `h` makes the state
`kInitialized`, resets the stored handshake id to `wxNOT_FOUND` and posts
exactly one event to the owner, the "initialized" event carrying the session
name (so no restart or reparse event). -/
theorem C10_handshake_completion (env : Collaborators) (s : LanguageServerProtocol)
    (chunk : String) (res : ResponseMessage) (rest : String)
    (hs : s.m_state = eState.kUnInitialized)
    (hd : env.decode (s.m_outputBuffer ++ chunk) = (some res, rest))
    (hid : res.GetId = s.m_initializeRequestID) :
    (OnNetDataReady env s chunk).m_state = eState.kInitialized ∧
    (OnNetDataReady env s chunk).m_initializeRequestID = wxNOT_FOUND ∧
    (OnNetDataReady env s chunk).ownerEvents = s.ownerEvents ++
      [{ type := LSPEventType.wxEVT_LSP_INITIALIZED, GetServerName := s.m_name }] := by
  unfold OnNetDataReady
  simp only
  obtain ⟨h1, h2, h3, -⟩ := ProcessQueue_frame
    (dispatchLoop env
      ((s.m_Queue.SetWaitingReponse false).m_pendingReplyMessages.length + 1)
      { s with m_outputBuffer := s.m_outputBuffer ++ chunk,
               m_Queue := s.m_Queue.SetWaitingReponse false })
  rw [h1, h2, h3]
  unfold dispatchLoop
  simp [hd, IsInitialized, hs, hid, postEvent, GetName]

/-- Concrete run: the reply with id 1 arrives right after the "connected" event. -/
theorem C10_handshake_completion_witness :
    exHandshaking.m_state = eState.kUnInitialized ∧
    (OnNetDataReady (exEnv exReply1) exHandshaking "x").m_state = eState.kInitialized ∧
    (OnNetDataReady (exEnv exReply1) exHandshaking "x").m_initializeRequestID = wxNOT_FOUND ∧
    (OnNetDataReady (exEnv exReply1) exHandshaking "x").ownerEvents = [] ++
      [{ type := LSPEventType.wxEVT_LSP_INITIALIZED, GetServerName := "clangd" }] :=
  ⟨rfl, C10_handshake_completion (exEnv exReply1) exHandshaking "x" exReply1 ""
    rfl (by decide) rfl⟩

/-- C5 (as stated, refuted): (1) right after the "connected" event the id map
holds the handshake request under id 1; the data-ready event delivering the
reply with id 1 leaves that key in the map and calls no handler.  (2) In an
initialized session awaiting request 7, the data-ready event delivering a reply
with id 7 that carries an error body calls no handler. -/
theorem C5_reply_without_handler_call :
    (mapHas exHandshaking.m_Queue.m_pendingReplyMessages exReply1.GetId = true ∧
     mapHas (OnNetDataReady (exEnv exReply1) exHandshaking "x").m_Queue.m_pendingReplyMessages
        exReply1.GetId = true ∧
     (OnNetDataReady (exEnv exReply1) exHandshaking "x").onResponseCalls = []) ∧
    (mapHas exAwaiting7.m_Queue.m_pendingReplyMessages exError7.GetId = true ∧
     (OnNetDataReady (exEnv exError7) exAwaiting7 "x").onResponseCalls = []) := by
  decide

/-- C5 (amended): let a data-ready event complete a message `res` and leave no
second complete message in the buffer.  If the session is initialized, `res`
has no error body and its id is a key of the id map, then the handler of the
request stored under that id is called exactly once (and no other handler),
the key is gone from the map and every other key is mapped as before.  If the
id of `res` is not a key of the map (any session state, error body or not), no
handler is called and the id map is unchanged. -/
theorem C5_reply_dispatch (env : Collaborators) (s : LanguageServerProtocol)
    (chunk : String) (res : ResponseMessage) (rest : String)
    (hd : env.decode (s.m_outputBuffer ++ chunk) = (some res, rest))
    (hone : rest = "" ∨ (env.decode rest).1 = none) :
    (s.m_state = eState.kInitialized → res.HasError = false →
      mapHas s.m_Queue.m_pendingReplyMessages res.GetId = true →
      ∃ req, mapFind s.m_Queue.m_pendingReplyMessages res.GetId = some req ∧
        (OnNetDataReady env s chunk).onResponseCalls = s.onResponseCalls ++ [(req, res)] ∧
        mapHas (OnNetDataReady env s chunk).m_Queue.m_pendingReplyMessages res.GetId = false ∧
        ∀ k, k ≠ res.GetId →
          mapFind (OnNetDataReady env s chunk).m_Queue.m_pendingReplyMessages k
            = mapFind s.m_Queue.m_pendingReplyMessages k) ∧
    (mapHas s.m_Queue.m_pendingReplyMessages res.GetId = false →
      (OnNetDataReady env s chunk).onResponseCalls = s.onResponseCalls ∧
      (OnNetDataReady env s chunk).m_Queue.m_pendingReplyMessages
        = s.m_Queue.m_pendingReplyMessages) := by
  constructor
  · intro hs he hk
    obtain ⟨req, hf⟩ := mapFind_isSome_of_mapHas _ _ hk
    refine ⟨req, hf, ?_⟩
    unfold OnNetDataReady
    simp only
    rw [ProcessQueue_pending, (ProcessQueue_frame _).2.2.2.1]
    have hloop := dispatchLoop_reply env
      ((s.m_Queue.SetWaitingReponse false).m_pendingReplyMessages.length)
      { s with m_outputBuffer := s.m_outputBuffer ++ chunk,
               m_Queue := s.m_Queue.SetWaitingReponse false }
      res rest req hs hd he hk hf
    rw [hloop]
    by_cases hr : rest = ""
    · rw [if_pos hr]
      exact ⟨rfl, mapHas_mapErase_self _ _, fun k hkk => by
        simp [SetWaitingReponse, mapFind_mapErase, hkk]⟩
    · rw [if_neg hr]
      have hnone : (env.decode rest).1 = none := hone.resolve_left hr
      have hlen : 0 < (s.m_Queue.SetWaitingReponse false).m_pendingReplyMessages.length := by
        cases hm : s.m_Queue.m_pendingReplyMessages with
        | nil => rw [hm] at hk; simp [mapHas] at hk
        | cons e t => simp [SetWaitingReponse, hm]
      obtain ⟨n, hn⟩ := Nat.exists_eq_succ_of_ne_zero (Nat.pos_iff_ne_zero.mp hlen)
      rw [hn]
      rcases hdr : env.decode rest with ⟨o, buf⟩
      rw [hdr] at hnone
      simp only at hnone
      subst hnone
      rw [dispatchLoop_none env n _ buf hdr]
      exact ⟨rfl, mapHas_mapErase_self _ _, fun k hkk => by
        simp [SetWaitingReponse, mapFind_mapErase, hkk]⟩
  · intro hk
    unfold OnNetDataReady
    simp only
    rw [ProcessQueue_pending, (ProcessQueue_frame _).2.2.2.1]
    obtain ⟨h1, h2⟩ := dispatchLoop_absent env
      ((s.m_Queue.SetWaitingReponse false).m_pendingReplyMessages.length)
      { s with m_outputBuffer := s.m_outputBuffer ++ chunk,
               m_Queue := s.m_Queue.SetWaitingReponse false }
      res rest hd hk
    rw [h1, h2]
    exact ⟨rfl, rfl⟩

/-- Concrete run: the reply to the pending request 7 arrives in an initialized session. -/
theorem C5_reply_dispatch_witness :
    exAwaiting7.m_state = eState.kInitialized ∧ exReply7.HasError = false ∧
    mapHas exAwaiting7.m_Queue.m_pendingReplyMessages exReply7.GetId = true ∧
    ∃ req, mapFind exAwaiting7.m_Queue.m_pendingReplyMessages exReply7.GetId = some req ∧
      (OnNetDataReady (exEnv exReply7) exAwaiting7 "x").onResponseCalls
        = exAwaiting7.onResponseCalls ++ [(req, exReply7)] ∧
      mapHas (OnNetDataReady (exEnv exReply7) exAwaiting7 "x").m_Queue.m_pendingReplyMessages
        exReply7.GetId = false ∧
      ∀ k, k ≠ exReply7.GetId →
        mapFind (OnNetDataReady (exEnv exReply7) exAwaiting7 "x").m_Queue.m_pendingReplyMessages k
          = mapFind exAwaiting7.m_Queue.m_pendingReplyMessages k :=
  ⟨rfl, rfl, by decide,
    (C5_reply_dispatch (exEnv exReply7) exAwaiting7 "x" exReply7 "" (by decide)
      (Or.inl rfl)).1 rfl rfl (by decide)⟩

/-- C6: after `Clear()` the pending list is empty, the waiting flag is false and
`TakePendingReplyMessage` returns null for every id; and right after `DoClear`
a data-ready event, whatever it carries, calls no request handler. -/
theorem C6_Clear_drops_pending (q : LSPRequestMessageQueue) (s : LanguageServerProtocol)
    (env : Collaborators) (chunk : String) :
    q.Clear.m_Queue = [] ∧ q.Clear.m_waitingReponse = false ∧
    (∀ id, (q.Clear.TakePendingReplyMessage id).1 = none) ∧
    (∀ id, (s.DoClear.m_Queue.TakePendingReplyMessage id).1 = none) ∧
    (OnNetDataReady env s.DoClear chunk).onResponseCalls = s.onResponseCalls := by
  refine ⟨rfl, rfl, fun id => rfl, fun id => rfl, ?_⟩
  unfold OnNetDataReady
  simp only
  rw [(ProcessQueue_frame _).2.2.2.1]
  exact (dispatchLoop_uninit env _ _ rfl).1

/-- C8: while the session state is `kUnInitialized`, for every editor (null
or not, any file, text, cursor and modified flag) and every file name, each of
`FindDefinition`, `FindDeclaration`, `CodeComplete`, `OpenEditor`,
`CloseEditor` and the handlers `OnFileLoaded`, `OnFileSaved`, `OnFileClosed`
leaves the pending list, the id map and the waiting flag as they were and
writes nothing to the transport. -/
theorem C8_pre_handshake_gate (env : Collaborators) (s : LanguageServerProtocol)
    (editor : Option IEditor) (filename : wxFileName)
    (hs : s.m_state = eState.kUnInitialized) :
    NoRequestIssued s (FindDefinition env s editor) ∧
    NoRequestIssued s (FindDeclaration env s editor) ∧
    NoRequestIssued s (CodeComplete env s editor) ∧
    NoRequestIssued s (OpenEditor env s editor) ∧
    NoRequestIssued s (CloseEditor env s editor) ∧
    NoRequestIssued s (OnFileLoaded env s editor) ∧
    NoRequestIssued s (OnFileSaved env s editor) ∧
    NoRequestIssued s (OnFileClosed s filename) := by
  have hopen : OpenEditor env s editor = s := by
    simp [OpenEditor, IsInitialized, hs]
  refine ⟨?_, ?_, ?_, ?_, ?_, ?_, ?_, ?_⟩
  · cases editor with
    | none => exact ⟨rfl, rfl⟩
    | some ed =>
      simp only [FindDefinition, syncBeforeQuery_uninit env s ed hs, MakeRequest]
      split
      · exact ⟨rfl, rfl⟩
      · simp [NoRequestIssued, QueueMessage, IsInitialized, hs]
  · cases editor with
    | none => exact ⟨rfl, rfl⟩
    | some ed =>
      simp only [FindDeclaration, syncBeforeQuery_uninit env s ed hs, MakeRequest]
      split
      · exact ⟨rfl, rfl⟩
      · simp [NoRequestIssued, QueueMessage, IsInitialized, hs]
  · cases editor with
    | none => exact ⟨rfl, rfl⟩
    | some ed =>
      simp only [CodeComplete, syncBeforeQuery_uninit env s ed hs, SendCodeCompleteRequest,
        MakeRequest]
      split
      · exact ⟨rfl, rfl⟩
      · split
        · simp [NoRequestIssued, QueueMessage, IsInitialized, hs]
        · exact ⟨rfl, rfl⟩
  · rw [hopen]
    exact ⟨rfl, rfl⟩
  · have : CloseEditor env s editor = s := by
      simp [CloseEditor, IsInitialized, hs]
    rw [this]
    exact ⟨rfl, rfl⟩
  · unfold OnFileLoaded
    rw [hopen]
    exact ⟨rfl, rfl⟩
  · cases editor with
    | none => exact ⟨rfl, rfl⟩
    | some ed =>
      simp only [OnFileSaved, SendSaveRequest, SendChangeRequest, QueueMessage_uninit s _ hs]
      split <;> exact ⟨rfl, rfl⟩
  · exact SendCloseRequest_uninit s filename hs

/-- Concrete run: editor calls between the "connected" event and the handshake reply. -/
theorem C8_pre_handshake_gate_witness :
    exHandshaking.m_state = eState.kUnInitialized ∧
    NoRequestIssued exHandshaking (FindDefinition (exEnv exReply1) exHandshaking (some exEditor)) ∧
    NoRequestIssued exHandshaking (CodeComplete (exEnv exReply1) exHandshaking (some exEditor)) :=
  ⟨rfl,
   (C8_pre_handshake_gate (exEnv exReply1) exHandshaking (some exEditor) exFile rfl).1,
   (C8_pre_handshake_gate (exEnv exReply1) exHandshaking (some exEditor) exFile rfl).2.2.1⟩

/-- C9: take a session as `DoClear` leaves it, whose transport has since
connected.  The "connected" event builds one initialize request carrying the
session root folder, pushes it (it is the only entry of the id map), writes
exactly that request to the transport (the pending list is empty again),
stores its id as the handshake id and leaves the state `kUnInitialized`. -/
theorem C9_handshake_on_connect (s0 : LanguageServerProtocol) (net : LSPNetwork)
    (hc : net.IsConnected = true) :
    ∃ req : RequestMessage,
      req.kind = RequestKind.InitializeRequest s0.m_rootFolder ∧
      req.IsNeedsReply = true ∧
      (OnNetConnected { s0.DoClear with m_network := net }).m_network.written
        = net.written ++ [req] ∧
      (OnNetConnected { s0.DoClear with m_network := net }).m_Queue.m_Queue = [] ∧
      (OnNetConnected { s0.DoClear with m_network := net }).m_Queue.m_pendingReplyMessages
        = [(req.GetId, req)] ∧
      (OnNetConnected { s0.DoClear with m_network := net }).m_initializeRequestID = req.GetId ∧
      (OnNetConnected { s0.DoClear with m_network := net }).m_state = eState.kUnInitialized := by
  have hc1 : net.connected = true := hc
  refine ⟨⟨s0.lastRequestId + 1, true, "", RequestKind.InitializeRequest s0.m_rootFolder⟩,
    rfl, rfl, ?_⟩
  unfold OnNetConnected
  simp only [MakeRequest, DoClear]
  rw [QueueMessage_init _ _ rfl]
  rw [ProcessQueue_send _
    ⟨s0.lastRequestId + 1, true, "", RequestKind.InitializeRequest s0.m_rootFolder⟩ []
    (by simp [Push, Clear, SetWaitingReponse]) (by simp [Push, Clear, SetWaitingReponse]) hc1]
  simp [Push, Clear, SetWaitingReponse, mapInsert, mapHas]

/-- Concrete run: the "connected" event on the cleared example session. -/
theorem C9_handshake_on_connect_witness :
    exNetwork.IsConnected = true ∧
    ∃ req : RequestMessage,
      req.kind = RequestKind.InitializeRequest exSession.m_rootFolder ∧
      req.IsNeedsReply = true ∧
      (OnNetConnected { exSession.DoClear with m_network := exNetwork }).m_network.written
        = exNetwork.written ++ [req] ∧
      (OnNetConnected { exSession.DoClear with m_network := exNetwork }).m_Queue.m_Queue = [] ∧
      (OnNetConnected { exSession.DoClear with m_network := exNetwork }).m_Queue.m_pendingReplyMessages
        = [(req.GetId, req)] ∧
      (OnNetConnected { exSession.DoClear with m_network := exNetwork }).m_initializeRequestID
        = req.GetId ∧
      (OnNetConnected { exSession.DoClear with m_network := exNetwork }).m_state
        = eState.kUnInitialized :=
  ⟨rfl, C9_handshake_on_connect exSession exNetwork rfl⟩

end LSP

namespace LSP

open LanguageServerProtocol LSPRequestMessageQueue

/-! ## Claims on inbound errors and pre-initialization traffic -/

/-- C11: in an uninitialized session, a data-ready event whose chunk completes a
message with an id other than the stored handshake id (error body or not)
leaves the state `kUnInitialized` and the stored handshake id, the sent-set and
the id map unchanged, calls no response handler and posts no event to the
owner. -/
theorem C11_pre_init_message_dropped (env : Collaborators) (s : LanguageServerProtocol)
    (chunk : String) (res : ResponseMessage) (rest : String)
    (hs : s.m_state = eState.kUnInitialized)
    (hd : env.decode (s.m_outputBuffer ++ chunk) = (some res, rest))
    (hid : res.GetId ≠ s.m_initializeRequestID) :
    (OnNetDataReady env s chunk).m_state = eState.kUnInitialized ∧
    (OnNetDataReady env s chunk).m_initializeRequestID = s.m_initializeRequestID ∧
    (OnNetDataReady env s chunk).m_filesSent = s.m_filesSent ∧
    (OnNetDataReady env s chunk).m_Queue.m_pendingReplyMessages
      = s.m_Queue.m_pendingReplyMessages ∧
    (OnNetDataReady env s chunk).onResponseCalls = s.onResponseCalls ∧
    (OnNetDataReady env s chunk).ownerEvents = s.ownerEvents := by
  rw [OnNetDataReady_eq]
  obtain ⟨h1, h2, h3, h4, h5, -⟩ := ProcessQueue_frame
    (dispatchLoop env (s.m_Queue.m_pendingReplyMessages.length + 1)
      { s with m_outputBuffer := s.m_outputBuffer ++ chunk,
               m_Queue := s.m_Queue.SetWaitingReponse false })
  have hl := dispatchLoop_uninit_other env s.m_Queue.m_pendingReplyMessages.length
    { s with m_outputBuffer := s.m_outputBuffer ++ chunk,
             m_Queue := s.m_Queue.SetWaitingReponse false } res rest hs hd hid
  rw [h1, h2, h3, h4, h5, ProcessQueue_pending, hl]
  exact ⟨hs, rfl, rfl, rfl, rfl, rfl⟩

/-- Concrete run: between the "connected" event and the handshake reply (id 1)
an error reply with id 7 arrives. -/
theorem C11_pre_init_message_dropped_witness :
    exHandshaking.m_state = eState.kUnInitialized ∧
    (OnNetDataReady (exEnv exError7) exHandshaking "x").m_state = eState.kUnInitialized ∧
    (OnNetDataReady (exEnv exError7) exHandshaking "x").m_initializeRequestID = 1 ∧
    (OnNetDataReady (exEnv exError7) exHandshaking "x").ownerEvents = [] :=
  ⟨rfl,
   (C11_pre_init_message_dropped (exEnv exError7) exHandshaking "x" exError7 ""
      rfl (by decide) (by decide)).1,
   (C11_pre_init_message_dropped (exEnv exError7) exHandshaking "x" exError7 ""
      rfl (by decide) (by decide)).2.1,
   (C11_pre_init_message_dropped (exEnv exError7) exHandshaking "x" exError7 ""
      rfl (by decide) (by decide)).2.2.2.2.2⟩

/-- C13: whatever the session state, the transport "error" event leaves the
sent-set, the pending list, the id map and the accumulator empty, the waiting
flag false, the handshake id `wxNOT_FOUND` and the state `kUnInitialized`; it
closes the transport once and does not open it; and it posts exactly one event
to the owner, "restart needed" carrying the session name. -/
theorem C13_transport_error (s : LanguageServerProtocol) :
    s.OnNetError.m_filesSent = [] ∧
    s.OnNetError.m_Queue.m_Queue = [] ∧
    s.OnNetError.m_Queue.m_pendingReplyMessages = [] ∧
    s.OnNetError.m_outputBuffer = "" ∧
    s.OnNetError.m_Queue.m_waitingReponse = false ∧
    s.OnNetError.m_initializeRequestID = wxNOT_FOUND ∧
    s.OnNetError.m_state = eState.kUnInitialized ∧
    s.OnNetError.m_network.IsConnected = false ∧
    s.OnNetError.m_network.closeCalls = s.m_network.closeCalls + 1 ∧
    s.OnNetError.m_network.opened = s.m_network.opened ∧
    s.OnNetError.ownerEvents = s.ownerEvents ++
      [{ type := LSPEventType.wxEVT_LSP_RESTART_NEEDED, GetServerName := s.m_name }] :=
  ⟨rfl, rfl, rfl, rfl, rfl, rfl, rfl, rfl, rfl, rfl, rfl⟩

end LSP

namespace LSP

open LanguageServerProtocol LSPRequestMessageQueue

/-- C12 (what the code does): in an initialized session, a data-ready event
whose chunk completes an error response with code internal-error or
invalid-request posts exactly one event to the owner, "restart needed"
carrying the session name, but it does not tear the session down as
`OnNetError` does: the state stays `kInitialized`, the sent-set and the
handshake id are unchanged, the bytes after the message stay in the
accumulator, the transport is neither closed nor opened, no response handler
is called, and of the id map only the entry under the id of the message is
removed, every other key being mapped as before. -/
theorem C12_fatal_error_response (env : Collaborators) (s : LanguageServerProtocol)
    (chunk : String) (res : ResponseMessage) (rest : String)
    (hs : s.m_state = eState.kInitialized)
    (hd : env.decode (s.m_outputBuffer ++ chunk) = (some res, rest))
    (he : res.HasError = true)
    (hc : res.GetErrorCode = kErrorCodeInternalError
      ∨ res.GetErrorCode = kErrorCodeInvalidRequest) :
    (OnNetDataReady env s chunk).ownerEvents = s.ownerEvents ++
      [{ type := LSPEventType.wxEVT_LSP_RESTART_NEEDED, GetServerName := s.m_name }] ∧
    (OnNetDataReady env s chunk).m_state = eState.kInitialized ∧
    (OnNetDataReady env s chunk).m_filesSent = s.m_filesSent ∧
    (OnNetDataReady env s chunk).m_initializeRequestID = s.m_initializeRequestID ∧
    (OnNetDataReady env s chunk).m_outputBuffer = rest ∧
    (OnNetDataReady env s chunk).m_network.connected = s.m_network.connected ∧
    (OnNetDataReady env s chunk).m_network.closeCalls = s.m_network.closeCalls ∧
    (OnNetDataReady env s chunk).m_network.opened = s.m_network.opened ∧
    (OnNetDataReady env s chunk).onResponseCalls = s.onResponseCalls ∧
    mapHas (OnNetDataReady env s chunk).m_Queue.m_pendingReplyMessages res.GetId = false ∧
    (∀ k, k ≠ res.GetId →
      mapFind (OnNetDataReady env s chunk).m_Queue.m_pendingReplyMessages k
        = mapFind s.m_Queue.m_pendingReplyMessages k) := by
  rw [OnNetDataReady_eq]
  obtain ⟨h1, h2, h3, h4, h5, h6, -⟩ := ProcessQueue_frame
    (dispatchLoop env (s.m_Queue.m_pendingReplyMessages.length + 1)
      { s with m_outputBuffer := s.m_outputBuffer ++ chunk,
               m_Queue := s.m_Queue.SetWaitingReponse false })
  obtain ⟨-, -, -, g1, g2, g3⟩ := ProcessQueue_frame2
    (dispatchLoop env (s.m_Queue.m_pendingReplyMessages.length + 1)
      { s with m_outputBuffer := s.m_outputBuffer ++ chunk,
               m_Queue := s.m_Queue.SetWaitingReponse false })
  have hl := dispatchLoop_error env s.m_Queue.m_pendingReplyMessages.length
    { s with m_outputBuffer := s.m_outputBuffer ++ chunk,
             m_Queue := s.m_Queue.SetWaitingReponse false } res rest hs hd he
  rw [if_pos hc] at hl
  obtain ⟨t1, t2⟩ := Take_index_facts (s.m_Queue.SetWaitingReponse false) res.GetId
  rw [h1, h2, h3, h4, h5, h6, g1, g2, g3, ProcessQueue_pending, hl]
  exact ⟨rfl, hs, rfl, rfl, rfl, rfl, rfl, rfl, rfl, t1, t2⟩

/-- Concrete run: a session is started, connects, completes the handshake and
issues a goto-definition request (id 2); the server answers that request with
an internal error.  After the event the state is still `kInitialized`, the
transport is still connected and has not been closed again, and the handshake
request is still held in the id map. -/
theorem C12_fatal_error_response_witness :
    exAfterOpen.m_state = eState.kInitialized ∧
    exAfterOpen.m_network.connected = true ∧
    mapHas exAfterOpen.m_Queue.m_pendingReplyMessages 2 = true ∧
    (OnNetDataReady (exEnv exInternalError2) exAfterOpen "x").ownerEvents
      = exAfterOpen.ownerEvents ++
      [{ type := LSPEventType.wxEVT_LSP_RESTART_NEEDED, GetServerName := "clangd" }] ∧
    (OnNetDataReady (exEnv exInternalError2) exAfterOpen "x").m_state
      = eState.kInitialized ∧
    (OnNetDataReady (exEnv exInternalError2) exAfterOpen "x").m_network.connected = true ∧
    (OnNetDataReady (exEnv exInternalError2) exAfterOpen "x").m_network.closeCalls
      = exAfterOpen.m_network.closeCalls ∧
    mapHas (OnNetDataReady (exEnv exInternalError2) exAfterOpen
      "x").m_Queue.m_pendingReplyMessages 1 = true :=
  ⟨by decide, by decide, by decide,
   (C12_fatal_error_response (exEnv exInternalError2) exAfterOpen "x" exInternalError2 ""
      (by decide) (by decide) rfl (Or.inl rfl)).1,
   (C12_fatal_error_response (exEnv exInternalError2) exAfterOpen "x" exInternalError2 ""
      (by decide) (by decide) rfl (Or.inl rfl)).2.1,
   by decide,
   (C12_fatal_error_response (exEnv exInternalError2) exAfterOpen "x" exInternalError2 ""
      (by decide) (by decide) rfl (Or.inl rfl)).2.2.2.2.2.2.1,
   by decide⟩

/-- C14: in an initialized session with a request pending under the id of the
message, a data-ready event whose chunk completes an error response with code
invalid-params posts exactly one event to the owner, "reparse needed" (so no
"restart needed"), leaves the state `kInitialized` and the sent-set unchanged,
removes that id from the id map (every other key is mapped as before) and calls
no response handler. -/
theorem C14_invalid_params (env : Collaborators) (s : LanguageServerProtocol)
    (chunk : String) (res : ResponseMessage) (rest : String)
    (hs : s.m_state = eState.kInitialized)
    (hd : env.decode (s.m_outputBuffer ++ chunk) = (some res, rest))
    (hk : mapHas s.m_Queue.m_pendingReplyMessages res.GetId = true)
    (he : res.HasError = true)
    (hc : res.GetErrorCode = kErrorCodeInvalidParams) :
    (OnNetDataReady env s chunk).ownerEvents = s.ownerEvents ++
      [{ type := LSPEventType.wxEVT_LSP_REPARSE_NEEDED, GetServerName := s.m_name }] ∧
    (OnNetDataReady env s chunk).m_state = eState.kInitialized ∧
    (OnNetDataReady env s chunk).m_filesSent = s.m_filesSent ∧
    mapHas (OnNetDataReady env s chunk).m_Queue.m_pendingReplyMessages res.GetId = false ∧
    (∀ k, k ≠ res.GetId →
      mapFind (OnNetDataReady env s chunk).m_Queue.m_pendingReplyMessages k
        = mapFind s.m_Queue.m_pendingReplyMessages k) ∧
    (OnNetDataReady env s chunk).onResponseCalls = s.onResponseCalls := by
  rw [OnNetDataReady_eq]
  obtain ⟨h1, -, h3, h4, h5, -⟩ := ProcessQueue_frame
    (dispatchLoop env (s.m_Queue.m_pendingReplyMessages.length + 1)
      { s with m_outputBuffer := s.m_outputBuffer ++ chunk,
               m_Queue := s.m_Queue.SetWaitingReponse false })
  have hl := dispatchLoop_error env s.m_Queue.m_pendingReplyMessages.length
    { s with m_outputBuffer := s.m_outputBuffer ++ chunk,
             m_Queue := s.m_Queue.SetWaitingReponse false } res rest hs hd he
  have hn : ¬ (res.GetErrorCode = kErrorCodeInternalError
      ∨ res.GetErrorCode = kErrorCodeInvalidRequest) := by
    rw [hc]; decide
  rw [if_neg hn, if_pos hc] at hl
  have hk2 : mapHas (s.m_Queue.SetWaitingReponse false).m_pendingReplyMessages res.GetId
      = true := hk
  rw [h1, h3, h4, h5, ProcessQueue_pending, hl]
  rw [Take_present _ _ hk2]
  exact ⟨rfl, hs, rfl, mapHas_mapErase_self _ _, fun k hkk => by
    simp [postEvent, SetWaitingReponse, mapFind_mapErase, hkk], rfl⟩

/-- Concrete run: the invalid-params reply to the pending request 7. -/
theorem C14_invalid_params_witness :
    exAwaiting7.m_state = eState.kInitialized ∧
    mapHas exAwaiting7.m_Queue.m_pendingReplyMessages exError7.GetId = true ∧
    (OnNetDataReady (exEnv exError7) exAwaiting7 "x").ownerEvents = [] ++
      [{ type := LSPEventType.wxEVT_LSP_REPARSE_NEEDED, GetServerName := "clangd" }] ∧
    mapHas (OnNetDataReady (exEnv exError7) exAwaiting7 "x").m_Queue.m_pendingReplyMessages
      exError7.GetId = false :=
  ⟨rfl, by decide,
   (C14_invalid_params (exEnv exError7) exAwaiting7 "x" exError7 "" rfl (by decide)
      (by decide) rfl rfl).1,
   (C14_invalid_params (exEnv exError7) exAwaiting7 "x" exError7 "" rfl (by decide)
      (by decide) rfl rfl).2.2.2.1⟩

end LSP

namespace LSP

open LanguageServerProtocol LSPRequestMessageQueue

/-- C15 (what the code does): in an initialized session, when the first message
completed by a data-ready event is an error response, or has an id that is not
a key of the id map (a reply with unknown id, a server notification), the loop
ends after that one message: everything the codec left after it, a second
complete message included, stays in the accumulator, and no response handler is
called during the event. -/
theorem C15_loop_ends_after_first_message (env : Collaborators) (s : LanguageServerProtocol)
    (chunk : String) (m1 : ResponseMessage) (rest : String)
    (hs : s.m_state = eState.kInitialized)
    (hd : env.decode (s.m_outputBuffer ++ chunk) = (some m1, rest))
    (hm : m1.HasError = true ∨ mapHas s.m_Queue.m_pendingReplyMessages m1.GetId = false) :
    (OnNetDataReady env s chunk).m_outputBuffer = rest ∧
    (OnNetDataReady env s chunk).onResponseCalls = s.onResponseCalls := by
  rw [OnNetDataReady_eq]
  obtain ⟨-, -, -, h4, -, h6, -⟩ := ProcessQueue_frame
    (dispatchLoop env (s.m_Queue.m_pendingReplyMessages.length + 1)
      { s with m_outputBuffer := s.m_outputBuffer ++ chunk,
               m_Queue := s.m_Queue.SetWaitingReponse false })
  rw [h4, h6]
  cases he : m1.HasError with
  | true =>
    have hl := dispatchLoop_error env s.m_Queue.m_pendingReplyMessages.length
      { s with m_outputBuffer := s.m_outputBuffer ++ chunk,
               m_Queue := s.m_Queue.SetWaitingReponse false } m1 rest hs hd he
    rw [hl]
    (repeat' split) <;> exact ⟨rfl, rfl⟩
  | false =>
    have hk : mapHas (s.m_Queue.SetWaitingReponse false).m_pendingReplyMessages m1.GetId
        = false := by
      rcases hm with h | h
      · rw [he] at h; cases h
      · exact h
    have hl := dispatchLoop_unknown env s.m_Queue.m_pendingReplyMessages.length
      { s with m_outputBuffer := s.m_outputBuffer ++ chunk,
               m_Queue := s.m_Queue.SetWaitingReponse false } m1 rest hs hd he hk
    rw [hl]
    split <;> exact ⟨rfl, rfl⟩

/-- Concrete run: one chunk carries a diagnostics notification followed by the
reply to the pending request 7.  After the event the reply is still in the
accumulator as a complete message, its handler has not been called and request
7 is still pending. -/
theorem C15_loop_ends_after_first_message_witness :
    exAwaiting7.m_state = eState.kInitialized ∧
    exStreamEnv.decode (exAwaiting7.m_outputBuffer ++ "dr") = (some exDiagnostics, "r") ∧
    exStreamEnv.decode "r" = (some exReply7, "") ∧
    (OnNetDataReady exStreamEnv exAwaiting7 "dr").m_outputBuffer = "r" ∧
    (OnNetDataReady exStreamEnv exAwaiting7 "dr").onResponseCalls = [] ∧
    mapHas (OnNetDataReady exStreamEnv exAwaiting7 "dr").m_Queue.m_pendingReplyMessages 7
      = true :=
  ⟨rfl, by decide, by decide,
   (C15_loop_ends_after_first_message exStreamEnv exAwaiting7 "dr" exDiagnostics "r" rfl
      (by decide) (Or.inr (by decide))).1,
   (C15_loop_ends_after_first_message exStreamEnv exAwaiting7 "dr" exDiagnostics "r" rfl
      (by decide) (Or.inr (by decide))).2,
   by decide⟩

end LSP

namespace LSP

open LanguageServerProtocol LSPRequestMessageQueue

/-! ## Claims on document synchronisation -/

/-- C16: in an initialized session, for an editor on a handled file whose path
is not in the sent-set, `FindDefinition` issues exactly two requests, in this
order: the did-open notification for the file with the full editor text and the
language id of the file, then the goto-definition request for the file at the
cursor line and column.  `FindDeclaration` and `CodeComplete` do the same with
their own request kind. -/
theorem C16_open_before_query (env : Collaborators) (s : LanguageServerProtocol) (ed : IEditor)
    (hs : s.m_state = eState.kInitialized)
    (hh : ShouldHandleFile env s ed.GetFileName = true)
    (hn : s.m_filesSent.contains ed.GetFileName.GetFullPath = false) :
    (didOpenOf env ed).kind = RequestKind.DidOpenTextDocumentRequest ed.GetFileName ed.GetText
      (GetLanguageId env ed.GetFileName) ∧
    issued (FindDefinition env s (some ed)) = issued s ++
      [didOpenOf env ed,
       queryOf s (RequestKind.GotoDefinitionRequest ed.GetFileName ed.GetCurrentLine
        ed.GetColumn)] ∧
    issued (FindDeclaration env s (some ed)) = issued s ++
      [didOpenOf env ed,
       queryOf s (RequestKind.GotoDeclarationRequest ed.GetFileName ed.GetCurrentLine
        ed.GetColumn)] ∧
    issued (CodeComplete env s (some ed)) = issued s ++
      [didOpenOf env ed,
       queryOf s (RequestKind.CompletionRequest ed.GetFileName ed.GetCurrentLine
        ed.GetColumn)] := by
  have hsync : syncOf env s ed = [didOpenOf env ed] := by
    unfold syncOf
    rw [hn]
    rfl
  obtain ⟨h1, h2, h3⟩ := query_issued env s ed hs hh
  rw [hsync] at h1 h2 h3
  refine ⟨rfl, ?_, ?_, ?_⟩
  · rw [h1, List.append_assoc]; rfl
  · rw [h2, List.append_assoc]; rfl
  · rw [h3, List.append_assoc]; rfl

/-- Concrete run: `FindDefinition` on `/a.cpp`, never sent, in a fresh
initialized session. -/
theorem C16_open_before_query_witness :
    exInitialized.m_state = eState.kInitialized ∧
    ShouldHandleFile (exEnv exReply1) exInitialized exEditor.GetFileName = true ∧
    issued (FindDefinition (exEnv exReply1) exInitialized (some exEditor)) =
      issued exInitialized ++
      [didOpenOf (exEnv exReply1) exEditor,
       queryOf exInitialized (RequestKind.GotoDefinitionRequest exEditor.GetFileName
        exEditor.GetCurrentLine exEditor.GetColumn)] :=
  ⟨rfl, by decide,
   (C16_open_before_query (exEnv exReply1) exInitialized exEditor rfl (by decide)
      (by decide)).2.1⟩

/-- C17 (what the code does): in an initialized session on a connected
transport with nothing queued or in flight, for an editor on a handled file
whose path is not in the sent-set, `FindDefinition` writes the did-open
notification and the goto-definition request and the queue is drained, and
`OpenEditor` writes the did-open notification; yet after either call the
sent-set is what it was, so the path is still not a member. -/
theorem C17_open_not_recorded (env : Collaborators) (s : LanguageServerProtocol) (ed : IEditor)
    (hs : s.m_state = eState.kInitialized)
    (hc : s.m_network.IsConnected = true)
    (hq : s.m_Queue.m_Queue = []) (hw : s.m_Queue.m_waitingReponse = false)
    (hh : ShouldHandleFile env s ed.GetFileName = true)
    (hn : s.m_filesSent.contains ed.GetFileName.GetFullPath = false) :
    ((FindDefinition env s (some ed)).m_network.written = s.m_network.written ++
        [didOpenOf env ed,
         queryOf s (RequestKind.GotoDefinitionRequest ed.GetFileName ed.GetCurrentLine
          ed.GetColumn)] ∧
      (FindDefinition env s (some ed)).m_Queue.m_Queue = [] ∧
      (FindDefinition env s (some ed)).m_filesSent.contains ed.GetFileName.GetFullPath
        = false) ∧
    ((OpenEditor env s (some ed)).m_network.written = s.m_network.written ++
        [didOpenOf env ed] ∧
      (OpenEditor env s (some ed)).m_Queue.m_Queue = [] ∧
      (OpenEditor env s (some ed)).m_filesSent.contains ed.GetFileName.GetFullPath
        = false) := by
  have hc1 : s.m_network.connected = true := hc
  obtain ⟨d1, d2, d3⟩ := QueueMessage_drains s (didOpenOf env ed) hs hc1 hq hw
  obtain ⟨g1, -, -, g4, g5⟩ := QueueMessage_frame s (didOpenOf env ed)
  obtain ⟨k1, -, -, k4⟩ := editor_calls_keep_filesSent env s (some ed)
  constructor
  · refine ⟨?_, ?_, by rw [k1]; exact hn⟩
    · simp only [FindDefinition, hh, Bool.not_true, Bool.false_eq_true, if_false, MakeRequest,
        syncBeforeQuery_open env s ed hn]
      obtain ⟨-, -, e3⟩ := QueueMessage_drains
        { s.QueueMessage (didOpenOf env ed) with
          lastRequestId := (s.QueueMessage (didOpenOf env ed)).lastRequestId + 1 }
        ⟨(s.QueueMessage (didOpenOf env ed)).lastRequestId + 1, true, "",
          RequestKind.GotoDefinitionRequest ed.GetFileName ed.GetCurrentLine ed.GetColumn⟩
        (by rw [← hs]; exact g1) (by rw [← hc1]; exact g5) d1 d2
      refine Eq.trans e3 ?_
      show (s.QueueMessage (didOpenOf env ed)).m_network.written ++ _ = _
      rw [d3, g4, List.append_assoc]
      rfl
    · simp only [FindDefinition, hh, Bool.not_true, Bool.false_eq_true, if_false, MakeRequest,
        syncBeforeQuery_open env s ed hn]
      exact (QueueMessage_drains
        { s.QueueMessage (didOpenOf env ed) with
          lastRequestId := (s.QueueMessage (didOpenOf env ed)).lastRequestId + 1 }
        ⟨(s.QueueMessage (didOpenOf env ed)).lastRequestId + 1, true, "",
          RequestKind.GotoDefinitionRequest ed.GetFileName ed.GetCurrentLine ed.GetColumn⟩
        (by rw [← hs]; exact g1) (by rw [← hc1]; exact g5) d1 d2).1
  · have ho : OpenEditor env s (some ed) = s.QueueMessage (didOpenOf env ed) := by
      simp only [OpenEditor, IsInitialized, hs, hh, hn, SendOpenRequest]
      rfl
    refine ⟨by rw [ho]; exact d3, by rw [ho]; exact d1, by rw [k4]; exact hn⟩

/-- Concrete run: `FindDefinition` on `/a.cpp` in a fresh initialized session;
both messages are written and the sent-set is still empty. -/
theorem C17_open_not_recorded_witness :
    exInitialized.m_state = eState.kInitialized ∧
    exInitialized.m_network.IsConnected = true ∧
    (FindDefinition (exEnv exReply1) exInitialized (some exEditor)).m_network.written =
      exInitialized.m_network.written ++
      [didOpenOf (exEnv exReply1) exEditor,
       queryOf exInitialized (RequestKind.GotoDefinitionRequest exEditor.GetFileName
        exEditor.GetCurrentLine exEditor.GetColumn)] ∧
    (FindDefinition (exEnv exReply1) exInitialized (some exEditor)).m_Queue.m_Queue = [] ∧
    (FindDefinition (exEnv exReply1) exInitialized
      (some exEditor)).m_filesSent.contains exEditor.GetFileName.GetFullPath = false :=
  ⟨rfl, rfl,
   (C17_open_not_recorded (exEnv exReply1) exInitialized exEditor rfl rfl rfl rfl
      (by decide) (by decide)).1⟩

end LSP

namespace LSP

open LanguageServerProtocol LSPRequestMessageQueue

end LSP

namespace LSP

open LanguageServerProtocol LSPRequestMessageQueue

/-! ## Claims on start, remaining error codes and partial delivery -/

/-- C21 (as stated, refuted): a stopped session whose launch command is empty:
`Start()` clears the session but does not open the transport. -/
theorem C21_Start_empty_command_not_opened :
    exNoCommand.m_network.IsConnected = false ∧
    exNoCommand.m_lspCommand = "" ∧
    exNoCommand.Start.m_network.opened = [] := by
  decide

/-- C21 (amended): on a connected transport `Start()` returns the session
unchanged (so nothing is opened).  On a transport that is not connected it
leaves the state `kUnInitialized`, the sent-set, the accumulator, the pending
list and the id map empty, the waiting flag false and the handshake id
`wxNOT_FOUND`; it then opens the transport once, with the configured launch
information, when the launch command is not empty, and does not open it when
the launch command is empty. -/
theorem C21_Start (s : LanguageServerProtocol) :
    (s.m_network.IsConnected = true → s.Start = s) ∧
    (s.m_network.IsConnected = false →
      s.Start.m_state = eState.kUnInitialized ∧
      s.Start.m_filesSent = [] ∧
      s.Start.m_outputBuffer = "" ∧
      s.Start.m_Queue.m_Queue = [] ∧
      s.Start.m_Queue.m_pendingReplyMessages = [] ∧
      s.Start.m_Queue.m_waitingReponse = false ∧
      s.Start.m_initializeRequestID = wxNOT_FOUND ∧
      (s.m_lspCommand ≠ "" → s.Start.m_network.opened = s.m_network.opened ++ [startupInfoOf s]) ∧
      (s.m_lspCommand = "" → s.Start.m_network.opened = s.m_network.opened)) := by
  constructor
  · intro hc
    simp [Start, IsRunning, hc]
  · intro hc
    have hst : s.Start = s.DoStart := by simp [Start, IsRunning, hc]
    rw [hst]
    by_cases he : s.m_lspCommand = ""
    · have hd : s.DoStart = s.DoClear := by simp [DoStart, DoClear, he]
      rw [hd]
      exact ⟨rfl, rfl, rfl, rfl, rfl, rfl, rfl, fun h => absurd he h, fun _ => rfl⟩
    · have hd : s.DoStart =
          { s.DoClear with m_network := s.DoClear.m_network.Open (startupInfoOf s) } := by
        simp [DoStart, DoClear, he, startupInfoOf]
      rw [hd]
      exact ⟨rfl, rfl, rfl, rfl, rfl, rfl, rfl, fun _ => rfl, fun h => absurd h he⟩

/-- Concrete run: `Start()` on a stopped session configured with "clangd". -/
theorem C21_Start_witness :
    exStopped.m_network.IsConnected = false ∧
    exStopped.Start.m_state = eState.kUnInitialized ∧
    exStopped.Start.m_network.opened = [] ++ [startupInfoOf exStopped] :=
  ⟨rfl, ((C21_Start exStopped).2 rfl).1,
   ((C21_Start exStopped).2 rfl).2.2.2.2.2.2.2.1 (by decide)⟩

/-- C22: in an initialized session, a data-ready event whose chunk completes an
error response with a code other than internal-error, invalid-request and
invalid-params posts no event to the owner (no restart, reparse or initialized
signal), leaves the state `kInitialized` and the sent-set unchanged, and calls
no response handler. -/
theorem C22_other_error_codes_ignored (env : Collaborators) (s : LanguageServerProtocol)
    (chunk : String) (res : ResponseMessage) (rest : String)
    (hs : s.m_state = eState.kInitialized)
    (hd : env.decode (s.m_outputBuffer ++ chunk) = (some res, rest))
    (he : res.HasError = true)
    (h1 : res.GetErrorCode ≠ kErrorCodeInternalError)
    (h2 : res.GetErrorCode ≠ kErrorCodeInvalidRequest)
    (h3 : res.GetErrorCode ≠ kErrorCodeInvalidParams) :
    (OnNetDataReady env s chunk).ownerEvents = s.ownerEvents ∧
    (OnNetDataReady env s chunk).m_state = eState.kInitialized ∧
    (OnNetDataReady env s chunk).m_filesSent = s.m_filesSent ∧
    (OnNetDataReady env s chunk).onResponseCalls = s.onResponseCalls := by
  rw [OnNetDataReady_eq]
  obtain ⟨f1, -, f3, f4, f5, -⟩ := ProcessQueue_frame
    (dispatchLoop env (s.m_Queue.m_pendingReplyMessages.length + 1)
      { s with m_outputBuffer := s.m_outputBuffer ++ chunk,
               m_Queue := s.m_Queue.SetWaitingReponse false })
  have hl := dispatchLoop_error env s.m_Queue.m_pendingReplyMessages.length
    { s with m_outputBuffer := s.m_outputBuffer ++ chunk,
             m_Queue := s.m_Queue.SetWaitingReponse false } res rest hs hd he
  have hn : ¬ (res.GetErrorCode = kErrorCodeInternalError
      ∨ res.GetErrorCode = kErrorCodeInvalidRequest) := by
    rintro (h | h)
    · exact h1 h
    · exact h2 h
  rw [if_neg hn, if_neg h3] at hl
  rw [f1, f3, f4, f5, hl]
  exact ⟨rfl, hs, rfl, rfl⟩

/-- Concrete run: a "method not found" reply to the pending request 7. -/
theorem C22_other_error_codes_ignored_witness :
    exAwaiting7.m_state = eState.kInitialized ∧
    exMethodNotFound7.HasError = true ∧
    (OnNetDataReady (exEnv exMethodNotFound7) exAwaiting7 "x").ownerEvents = [] ∧
    (OnNetDataReady (exEnv exMethodNotFound7) exAwaiting7 "x").m_state
      = eState.kInitialized ∧
    (OnNetDataReady (exEnv exMethodNotFound7) exAwaiting7 "x").onResponseCalls = [] :=
  ⟨rfl, rfl,
   (C22_other_error_codes_ignored (exEnv exMethodNotFound7) exAwaiting7 "x"
      exMethodNotFound7 "" rfl (by decide) rfl (by decide) (by decide) (by decide)).1,
   (C22_other_error_codes_ignored (exEnv exMethodNotFound7) exAwaiting7 "x"
      exMethodNotFound7 "" rfl (by decide) rfl (by decide) (by decide) (by decide)).2.1,
   (C22_other_error_codes_ignored (exEnv exMethodNotFound7) exAwaiting7 "x"
      exMethodNotFound7 "" rfl (by decide) rfl (by decide) (by decide) (by decide)).2.2.2⟩

/-- C23: in any session state, when the codec reports "incomplete" on the
accumulator followed by the chunk and leaves that buffer untouched, the
data-ready event leaves the accumulator equal to the old accumulator followed
by the chunk, calls no response handler, posts no event to the owner and
changes neither the state, the handshake id, the sent-set nor the id map. -/
theorem C23_partial_delivery (env : Collaborators) (s : LanguageServerProtocol)
    (chunk : String)
    (hd : env.decode (s.m_outputBuffer ++ chunk) = (none, s.m_outputBuffer ++ chunk)) :
    (OnNetDataReady env s chunk).m_outputBuffer = s.m_outputBuffer ++ chunk ∧
    (OnNetDataReady env s chunk).onResponseCalls = s.onResponseCalls ∧
    (OnNetDataReady env s chunk).ownerEvents = s.ownerEvents ∧
    (OnNetDataReady env s chunk).m_state = s.m_state ∧
    (OnNetDataReady env s chunk).m_initializeRequestID = s.m_initializeRequestID ∧
    (OnNetDataReady env s chunk).m_filesSent = s.m_filesSent ∧
    (OnNetDataReady env s chunk).m_Queue.m_pendingReplyMessages
      = s.m_Queue.m_pendingReplyMessages := by
  rw [OnNetDataReady_eq]
  obtain ⟨f1, f2, f3, f4, f5, f6, -⟩ := ProcessQueue_frame
    (dispatchLoop env (s.m_Queue.m_pendingReplyMessages.length + 1)
      { s with m_outputBuffer := s.m_outputBuffer ++ chunk,
               m_Queue := s.m_Queue.SetWaitingReponse false })
  have hl := dispatchLoop_none env s.m_Queue.m_pendingReplyMessages.length
    { s with m_outputBuffer := s.m_outputBuffer ++ chunk,
             m_Queue := s.m_Queue.SetWaitingReponse false } (s.m_outputBuffer ++ chunk) hd
  rw [f1, f2, f3, f4, f5, f6, ProcessQueue_pending, hl]
  exact ⟨rfl, rfl, rfl, rfl, rfl, rfl, rfl⟩

/-- Concrete run: a chunk that completes no message arrives while request 7 is
pending. -/
theorem C23_partial_delivery_witness :
    (OnNetDataReady exIncompleteEnv exAwaiting7 "Content-Le").m_outputBuffer
      = exAwaiting7.m_outputBuffer ++ "Content-Le" ∧
    (OnNetDataReady exIncompleteEnv exAwaiting7 "Content-Le").onResponseCalls
      = exAwaiting7.onResponseCalls :=
  ⟨(C23_partial_delivery exIncompleteEnv exAwaiting7 "Content-Le" rfl).1,
   (C23_partial_delivery exIncompleteEnv exAwaiting7 "Content-Le" rfl).2.1⟩

end LSP

namespace LSP

open LanguageServerProtocol LSPRequestMessageQueue

/-! ## Claims on the cleared state and on language identifiers -/

/-- C25 (what the code does): in a session in the cleared state (state
`kUnInitialized`, stored handshake id `wxNOT_FOUND`), a data-ready event whose
chunk completes a message whose `GetId()` is `wxNOT_FOUND` passes the test
`res.GetId() == m_initializeRequestID`: the state becomes `kInitialized` and an
"initialized" event is posted to the owner, although no handshake was issued. -/
theorem C25_cleared_session_initialized_by_id_not_found (env : Collaborators)
    (s : LanguageServerProtocol) (chunk : String) (res : ResponseMessage) (rest : String)
    (hs : s.m_state = eState.kUnInitialized)
    (hh : s.m_initializeRequestID = wxNOT_FOUND)
    (hd : env.decode (s.m_outputBuffer ++ chunk) = (some res, rest))
    (hid : res.GetId = wxNOT_FOUND) :
    (OnNetDataReady env s chunk).m_state = eState.kInitialized ∧
    (OnNetDataReady env s chunk).ownerEvents = s.ownerEvents ++
      [{ type := LSPEventType.wxEVT_LSP_INITIALIZED, GetServerName := s.m_name }] := by
  rw [OnNetDataReady_eq]
  obtain ⟨f1, -, f3, -⟩ := ProcessQueue_frame
    (dispatchLoop env (s.m_Queue.m_pendingReplyMessages.length + 1)
      { s with m_outputBuffer := s.m_outputBuffer ++ chunk,
               m_Queue := s.m_Queue.SetWaitingReponse false })
  rw [f1, f3]
  unfold dispatchLoop
  simp [hd, IsInitialized, hs, hid, hh, postEvent, GetName]

/-- Concrete run: a newly constructed session, never started, receives a
diagnostics notification (a message without id). -/
theorem C25_cleared_session_initialized_by_id_not_found_witness :
    (construct "clangd" 0).m_state = eState.kUnInitialized ∧
    (construct "clangd" 0).m_initializeRequestID = wxNOT_FOUND ∧
    (construct "clangd" 0).m_network.written = [] ∧
    (OnNetDataReady (exEnv exDiagnostics) (construct "clangd" 0) "x").m_state
      = eState.kInitialized ∧
    (OnNetDataReady (exEnv exDiagnostics) (construct "clangd" 0) "x").ownerEvents = [] ++
      [{ type := LSPEventType.wxEVT_LSP_INITIALIZED, GetServerName := "clangd" }] :=
  ⟨rfl, rfl, rfl,
   C25_cleared_session_initialized_by_id_not_found (exEnv exDiagnostics)
     (construct "clangd" 0) "x" exDiagnostics "" rfl rfl (by decide) rfl⟩

/-- C28: `GetLanguageId` of a file is the empty string or a member of the
supported-languages set.  It is decided by the file type of the full name: C
sources give "c", C++ sources and headers give "cpp", and JavaScript,
Dockerfile, Java, Python, Makefile, PHP and SQL files give "javascript",
"dockerfile", "java", "python", "makefile", "php" and "sql"; every other type
gives the empty string.  `CanHandle` holds exactly when the language id of the
file is in the configured language set of the session, so a file whose
language id is empty is handled exactly when that set contains the empty
string. -/
theorem C28_language_ids (env : Collaborators) (s : LanguageServerProtocol)
    (filename : wxFileName) :
    (GetLanguageId env filename = "" ∨ GetLanguageId env filename ∈ GetSupportedLanguages) ∧
    (env.GetType filename.GetFullName = FileType.TypeSourceC →
      GetLanguageId env filename = "c") ∧
    (env.GetType filename.GetFullName = FileType.TypeSourceCpp →
      GetLanguageId env filename = "cpp") ∧
    (env.GetType filename.GetFullName = FileType.TypeHeader →
      GetLanguageId env filename = "cpp") ∧
    (env.GetType filename.GetFullName = FileType.TypeJS →
      GetLanguageId env filename = "javascript") ∧
    (env.GetType filename.GetFullName = FileType.TypeDockerfile →
      GetLanguageId env filename = "dockerfile") ∧
    (env.GetType filename.GetFullName = FileType.TypeJava →
      GetLanguageId env filename = "java") ∧
    (env.GetType filename.GetFullName = FileType.TypePython →
      GetLanguageId env filename = "python") ∧
    (env.GetType filename.GetFullName = FileType.TypeMakefile →
      GetLanguageId env filename = "makefile") ∧
    (env.GetType filename.GetFullName = FileType.TypePhp →
      GetLanguageId env filename = "php") ∧
    (env.GetType filename.GetFullName = FileType.TypeSQL →
      GetLanguageId env filename = "sql") ∧
    (env.GetType filename.GetFullName = FileType.TypeText →
      GetLanguageId env filename = "") ∧
    (∀ n, env.GetType filename.GetFullName = FileType.TypeOther n →
      GetLanguageId env filename = "") ∧
    (∀ t : FileType, GetLanguageIdOfType t = "" ∨
      GetLanguageIdOfType t ∈ GetSupportedLanguages) ∧
    GetLanguageIdOfType FileType.TypeSourceC = "c" ∧
    GetLanguageIdOfType FileType.TypeSourceCpp = "cpp" ∧
    GetLanguageIdOfType FileType.TypeHeader = "cpp" ∧
    (CanHandle env s filename = true ↔ GetLanguageId env filename ∈ s.m_languages) ∧
    (GetLanguageId env filename = "" →
      (CanHandle env s filename = true ↔ "" ∈ s.m_languages)) ∧
    (env.GetType filename.GetFullName = FileType.TypeSourceC →
      (CanHandle env s filename = true ↔ "c" ∈ s.m_languages)) := by
  have hall : ∀ t : FileType, GetLanguageIdOfType t = "" ∨
      GetLanguageIdOfType t ∈ GetSupportedLanguages := by
    intro t
    cases t <;> simp [GetLanguageIdOfType, GetSupportedLanguages]
  have hcan : CanHandle env s filename = true ↔ GetLanguageId env filename ∈ s.m_languages := by
    simp [CanHandle]
  have hty : ∀ (t : FileType) (v : String), GetLanguageIdOfType t = v →
      env.GetType filename.GetFullName = t → GetLanguageId env filename = v := by
    intro t v hv ht
    unfold GetLanguageId
    rw [ht, hv]
  refine ⟨hall _, hty _ _ rfl, hty _ _ rfl, hty _ _ rfl, hty _ _ rfl, hty _ _ rfl,
    hty _ _ rfl, hty _ _ rfl, hty _ _ rfl, hty _ _ rfl, hty _ _ rfl, hty _ _ rfl,
    fun n => hty _ _ rfl, hall, rfl, rfl, rfl, hcan, ?_, ?_⟩
  · intro he
    rw [hcan, he]
  · intro ht
    have hc : GetLanguageId env filename = "c" := hty FileType.TypeSourceC "c" rfl ht
    rw [hcan, hc]

/-- Concrete instance: `/a.cpp` is a C++ source for the example collaborators,
so its language id is "cpp" and the example session, configured for c and cpp,
handles it. -/
theorem C28_language_ids_witness :
    (exEnv exReply1).GetType exFile.GetFullName = FileType.TypeSourceCpp ∧
    GetLanguageId (exEnv exReply1) exFile = "cpp" ∧
    CanHandle (exEnv exReply1) exSession exFile = true :=
  ⟨by decide,
   (C28_language_ids (exEnv exReply1) exSession exFile).2.2.1 (by decide),
   (C28_language_ids (exEnv exReply1) exSession exFile).2.2.2.2.2.2.2.2.2.2.2.2.2.2.2.2.2.1.2
     (by decide)⟩

end LSP

namespace LSP

open LanguageServerProtocol LSPRequestMessageQueue

/-! ## Claims on reachable states and on the inbound loop -/

/-- C24: in every state reached from a newly constructed session by any
sequence of events (both `Start` functions, `Stop`, connected, data-ready,
error, transport state changes, the editor calls and file handlers, workspace
closed and opened), state `kInitialized` implies that the stored handshake id
is `wxNOT_FOUND`; hence `IsInitialized`, which reads the state only, agrees
with the spec's definition (handshake id clear and state `Initialized`). -/
theorem C24_initialized_implies_handshake_clear (env : Collaborators) (name : String)
    (lastRequestId : Int) (events : List SessionEvent) :
    ((runSession env (construct name lastRequestId) events).m_state = eState.kInitialized →
      (runSession env (construct name lastRequestId) events).m_initializeRequestID
        = wxNOT_FOUND) ∧
    (runSession env (construct name lastRequestId) events).IsInitialized
      = specIsInitialized (runSession env (construct name lastRequestId) events) := by
  have h0 : HandshakeInv (construct name lastRequestId) := fun h => by cases h
  have hinv : HandshakeInv (runSession env (construct name lastRequestId) events) :=
    (runSession_keeps env events _).1 h0
  refine ⟨hinv, ?_⟩
  cases hs : (runSession env (construct name lastRequestId) events).m_state with
  | kUnInitialized => simp [IsInitialized, specIsInitialized, hs]
  | kInitialized => simp [IsInitialized, specIsInitialized, hs, hinv hs]

/-- C26: in every state reached from a newly constructed session by any
sequence of events the sent-set is empty.  Consequently, in such a state the
prologue of a query always issues did-open and never did-change, `OpenEditor`
never issues did-change, and `SendCloseRequest` returns without issuing
did-close. -/
theorem C26_sent_set_never_populated (env : Collaborators) (name : String)
    (lastRequestId : Int) (events : List SessionEvent) (ed : IEditor) (filename : wxFileName) :
    (runSession env (construct name lastRequestId) events).m_filesSent = [] ∧
    syncBeforeQuery env (runSession env (construct name lastRequestId) events) ed
      = (runSession env (construct name lastRequestId) events).QueueMessage
          (didOpenOf env ed) ∧
    (OpenEditor env (runSession env (construct name lastRequestId) events) (some ed)
        = runSession env (construct name lastRequestId) events ∨
      OpenEditor env (runSession env (construct name lastRequestId) events) (some ed)
        = (runSession env (construct name lastRequestId) events).QueueMessage
            (didOpenOf env ed)) ∧
    (runSession env (construct name lastRequestId) events).SendCloseRequest filename
      = runSession env (construct name lastRequestId) events := by
  have hempty : (runSession env (construct name lastRequestId) events).m_filesSent = [] :=
    (runSession_keeps env events _).2 rfl
  have hnot : ∀ p : String,
      (runSession env (construct name lastRequestId) events).m_filesSent.contains p = false := by
    intro p
    rw [hempty]
    rfl
  refine ⟨hempty, syncBeforeQuery_open env _ ed (hnot _), ?_, ?_⟩
  · unfold OpenEditor
    split
    · exact Or.inl rfl
    · simp only
      split
      · rw [hnot]
        exact Or.inr rfl
      · exact Or.inl rfl
  · unfold SendCloseRequest
    rw [hnot]
    rfl

/-- C27 (as stated, refuted): a chunk that completes no message arrives; the
codec (which never decodes anything, so it trivially shortens the buffer with
every message) finds no complete message in the accumulator, yet the loop body
runs once. -/
theorem C27_one_iteration_without_message :
    (∀ b m r, exIncompleteEnv.decode b = (some m, r) → r.length < b.length) ∧
    messagesIn exIncompleteEnv (exAwaiting7.m_outputBuffer ++ "Content-Le") = 0 ∧
    dataReadyIterations exIncompleteEnv exAwaiting7 "Content-Le" = 1 := by
  refine ⟨?_, by decide, by decide⟩
  intro b m r h
  cases h

/-- C27 (amended): the loop of `OnNetDataReady` terminates in every session
state: its body runs at most once more than there are entries in the id map
(and the bound the model gives the loop never cuts it short), after which
`ProcessQueue` is called once.  With a codec that removes at least one
character with every message it decodes, the body runs at most once more than
there are complete messages in the accumulator. -/
theorem C27_loop_iterations (env : Collaborators) (s : LanguageServerProtocol) (chunk : String)
    (hshrink : ∀ b m r, env.decode b = (some m, r) → r.length < b.length) :
    dataReadyIterations env s chunk ≤ messagesIn env (s.m_outputBuffer ++ chunk) + 1 ∧
    dataReadyIterations env s chunk ≤ s.m_Queue.m_pendingReplyMessages.length + 1 ∧
    (∀ n, s.m_Queue.m_pendingReplyMessages.length < n →
      dispatchLoopTrace env n
          { s with m_outputBuffer := s.m_outputBuffer ++ chunk,
                   m_Queue := s.m_Queue.SetWaitingReponse false }
        = dispatchLoopTrace env (s.m_Queue.m_pendingReplyMessages.length + 1)
          { s with m_outputBuffer := s.m_outputBuffer ++ chunk,
                   m_Queue := s.m_Queue.SetWaitingReponse false }) ∧
    OnNetDataReady env s chunk =
      ProcessQueue (dispatchLoopTrace env (s.m_Queue.m_pendingReplyMessages.length + 1)
        { s with m_outputBuffer := s.m_outputBuffer ++ chunk,
                 m_Queue := s.m_Queue.SetWaitingReponse false }).1 := by
  refine ⟨?_, ?_, ?_, ?_⟩
  · exact dispatchLoopTrace_count_le_messages env hshrink _
      { s with m_outputBuffer := s.m_outputBuffer ++ chunk,
               m_Queue := s.m_Queue.SetWaitingReponse false }
      (s.m_outputBuffer ++ chunk).length (Nat.le_refl _)
  · exact dispatchLoopTrace_count_le env _ _
  · intro n hn
    exact dispatchLoopTrace_bound_irrelevant env n _ _ hn (Nat.lt_succ_self _)
  · rw [dispatchLoopTrace_state, OnNetDataReady_eq]

/-- Concrete run: two replies arrive in one chunk while request 7 is pending;
the body runs twice. -/
theorem C27_loop_iterations_witness :
    dataReadyIterations exStreamEnv exAwaiting7 "rr" = 2 ∧
    messagesIn exStreamEnv (exAwaiting7.m_outputBuffer ++ "rr") = 2 ∧
    dataReadyIterations exStreamEnv exAwaiting7 "rr"
      ≤ messagesIn exStreamEnv (exAwaiting7.m_outputBuffer ++ "rr") + 1 :=
  ⟨by decide, by decide,
   (C27_loop_iterations exStreamEnv exAwaiting7 "rr" exStreamEnv_shrinks).1⟩

end LSP
